import Mathlib

/-!
SimpleScreenRecorder video previewer: pacing, geometry and shared state.

A shallow embedding of `src/GUI/VideoPreviewer.cpp`.

* `int` and `int64_t` values are integers (`Int`), and the arithmetic of the
  code is wrapped to its width: `wrap32` for the `int` products, sums and
  quotients of `CalculateScaledSize` and the differences of line 172, `wrap64`
  for the `int64_t` sums and the difference of the timestamp check. The
  differences `width() - 2` and `height() - 2` are not wrapped, a widget's size
  being non-negative. C++ integer division truncates toward zero, so it is
  `Int.tdiv`.
* `unsigned int` values are natural numbers (`Nat`); the implicit conversion to
  `int` made by `QSize(width, height)` is `toInt32`.
* `SINK_TIMESTAMP_ANY` is a macro of a header that is not part of the sources
  at hand; every definition that needs it takes it as the parameter `ANY`.
* The scaler `m_fast_scaler` is an external collaborator; it is the parameter
  `Scale`, a function from the source frame, the destination geometry and the
  destination buffer to the destination buffer after the call.
* The data guarded by `m_shared_data` is the record `SharedData`; each method
  is a function on it, paired with a flag telling whether `NeedsUpdate` was
  emitted.
* `ReadVideoFrame` holds the lock twice and scales in between; `lockStep` takes
  each lock-held section of every method as one atomic step, so that a
  `paintEvent` can fall between the two sections of a `ReadVideoFrame`.
* `CalculateScaledSizeExact` is the computation of `CalculateScaledSize` over
  the unbounded integers, for the comparison with the 32-bit arithmetic of the
  code.
-/

namespace SSR

/-! ## Qt value types -/

/-- Qt's `QSize`: a pair of `int`s. -/
structure QSize where
  width : Int
  height : Int
deriving DecidableEq, Repr

/-- Qt's `QPoint`. -/
structure QPoint where
  x : Int
  y : Int
deriving DecidableEq, Repr

/-- Qt's `QRect`, built from a top-left corner and a size. -/
structure QRect where
  pos : QPoint
  size : QSize
deriving DecidableEq, Repr

/-- Qt's `QImage` as far as the previewer uses it: its size, its line stride
in bytes and its bytes. The null image `QImage()` has size `0 x 0` and no
bytes. -/
structure QImage where
  size : QSize
  bytesPerLine : Int
  bits : List Nat
deriving DecidableEq, Repr

/-- The null image `QImage()`. -/
def QImage.null : QImage := ⟨⟨0, 0⟩, 0, []⟩

/-- `QImage::isNull()`: an image is null when it has no pixels. -/
def QImage.isNull (img : QImage) : Bool :=
  decide (img.size.width ≤ 0 ∨ img.size.height ≤ 0)

/-- The image `QImage(size, QImage::Format_RGB32)`: four bytes per pixel, lines
of `4 * width` bytes; a size without pixels gives the null image. -/
def QImage.create (size : QSize) : QImage :=
  if size.width ≤ 0 ∨ size.height ≤ 0 then QImage.null
  else ⟨size, 4 * size.width, List.replicate (4 * size.width * size.height).toNat 0⟩

/-- The pixel format tag of a frame (an enumeration of the codec library). -/
abbrev PixelFormat := Nat

/-- The tag `PIX_FMT_BGRA`, left abstract as a number. -/
def PIX_FMT_BGRA : PixelFormat := 0

/-- The external scaler `FastScaler::Scale`: source width, height, data, stride
and format, destination width, height, stride and format, and the destination
buffer before the call; the result is the destination buffer after it. -/
abbrev FastScaler :=
  Nat → Nat → List Nat → Int → PixelFormat → Int → Int → Int → PixelFormat → List Nat → List Nat

/-- Conversion of an `unsigned int` to `int` (two's complement, 32 bits). -/
def toInt32 (n : Nat) : Int :=
  if n % 2 ^ 32 < 2 ^ 31 then ((n % 2 ^ 32 : Nat) : Int) else ((n % 2 ^ 32 : Nat) : Int) - 2 ^ 32

/-! ## Machine integers -/

/-- The value of a mathematical integer as a 32-bit two's complement `int`. -/
def wrap32 (x : Int) : Int :=
  (x + 2 ^ 31) % 2 ^ 32 - 2 ^ 31

/-- The value of a mathematical integer as a 64-bit two's complement `int64_t`. -/
def wrap64 (x : Int) : Int :=
  (x + 2 ^ 63) % 2 ^ 64 - 2 ^ 63

/-- The least `int64_t`. -/
def INT64_MIN : Int := -9223372036854775808

/-- The greatest `int64_t`. -/
def INT64_MAX : Int := 9223372036854775807

/-- Timestamps for which the pacing arithmetic cannot overflow: at least one
longest period (1000000) above `INT64_MIN` and at least two below `INT64_MAX`. -/
def InPacingRange (t : Int) : Prop :=
  INT64_MIN + 1000000 ≤ t ∧ t ≤ INT64_MAX - 2000000

instance (t : Int) : Decidable (InPacingRange t) := by
  unfold InPacingRange
  exact inferInstance

/-! ## `CalculateScaledSize` -/

/-- The function `CalculateScaledSize(in, out)` of lines 25-33, in the 32-bit `int`
arithmetic of the code: every product, sum and quotient is wrapped. The
`Q_ASSERT` on the first line states the precondition
`0 < in.width ∧ 0 < in.height` and does nothing else. -/
def CalculateScaledSize (inp out : QSize) : QSize :=
  if inp.width ≤ out.width ∧ inp.height ≤ out.height then
    inp
  else if wrap32 (inp.width * out.height) > wrap32 (out.width * inp.height) then
    QSize.mk out.width
      (wrap32 (Int.tdiv
        (wrap32 (wrap32 (out.width * inp.height) + wrap32 (Int.tdiv inp.width 2))) inp.width))
  else
    QSize.mk
      (wrap32 (Int.tdiv
        (wrap32 (wrap32 (out.height * inp.width) + wrap32 (Int.tdiv inp.height 2))) inp.height))
      out.height

/-- The computation of `CalculateScaledSize` over the unbounded integers, as the
specification words it (`round(bound × srcOther / srcLimiting)` with
`(num + den/2) / den`); the reference the code is compared with. -/
def CalculateScaledSizeExact (inp out : QSize) : QSize :=
  if inp.width ≤ out.width ∧ inp.height ≤ out.height then
    inp
  else if inp.width * out.height > out.width * inp.height then
    QSize.mk out.width (Int.tdiv (out.width * inp.height + Int.tdiv inp.width 2) inp.width)
  else
    QSize.mk (Int.tdiv (out.height * inp.width + Int.tdiv inp.height 2) inp.height) out.height

/-! ## The shared data and the methods of `VideoPreviewer` -/

/-- The members guarded by `m_shared_data`. -/
structure SharedData where
  m_image : QImage
  m_source_size : QSize
  m_widget_size : QSize
  m_is_visible : Bool
  m_frame_rate : Nat
  m_next_frame_time : Int
deriving DecidableEq, Repr

namespace VideoPreviewer

/-- The constructor (lines 35-51): `m_image` is default-constructed. -/
def init (ANY : Int) : SharedData :=
  { m_image := QImage.null
    m_source_size := QSize.mk 0 0
    m_widget_size := QSize.mk 0 0
    m_is_visible := false
    m_frame_rate := 10
    m_next_frame_time := ANY }

/-- The method `Reset()` (lines 60-64): clears the image and emits `NeedsUpdate`. -/
def Reset (s : SharedData) : SharedData × Bool :=
  ({ s with m_image := QImage.null }, true)

/-- The method `SetFrameRate(frame_rate)` (lines 66-69). -/
def SetFrameRate (s : SharedData) (frame_rate : Nat) : SharedData :=
  { s with m_frame_rate := max 1 frame_rate }

/-- The method `GetNextVideoTimestamp()` (lines 71-74). -/
def GetNextVideoTimestamp (s : SharedData) : Int :=
  s.m_next_frame_time

/-- The pacing period `1000000 / m_frame_rate` (unsigned division; at most
1000000, so it converts to `int64_t` unchanged). -/
def period (s : SharedData) : Int :=
  ((1000000 / s.m_frame_rate : Nat) : Int)

/-- The first locked block of `ReadVideoFrame` (lines 80-104): `none` when the
frame is discarded by one of the three `return`s, otherwise the shared data at
the end of the block and the local `image_size`. The sums and the difference
of lines 93-97 are `int64_t` operations and wrap. -/
def ReadVideoFrame.locked (ANY : Int) (s : SharedData) (width height : Nat)
    (timestamp : Int) : Option (SharedData × QSize) :=
  -- don't do anything if the preview window is invisible
  if !s.m_is_visible then none
  -- check the size
  else if width < 2 ∨ height < 2 ∨ s.m_widget_size.width < 2 ∨ s.m_widget_size.height < 2 then
    none
  else
    -- check the timestamp
    let paced : Option SharedData :=
      if s.m_next_frame_time = ANY then
        some { s with m_next_frame_time := wrap64 (timestamp + period s) }
      else if timestamp < wrap64 (s.m_next_frame_time - period s) then
        none
      else
        some { s with
          m_next_frame_time := max (wrap64 (s.m_next_frame_time + period s)) timestamp }
    match paced with
    | none => none
    | some s1 =>
      -- calculate the scaled size
      let s2 := { s1 with m_source_size := QSize.mk (toInt32 width) (toInt32 height) }
      some (s2, CalculateScaledSize s2.m_source_size s2.m_widget_size)

/-- The inner loop of lines 121-123 for the row that starts at byte `row`. -/
def alphaRow (row : Int) (w : Int) (bits : List Nat) : List Nat :=
  (List.range w.toNat).foldl (fun b (x : Nat) => b.set (row + (x : Int) * 4 + 3).toNat 0xff) bits

/-- The loop of lines 119-124: the alpha byte of every pixel becomes `0xff`. -/
def forceAlpha (out_stride : Int) (size : QSize) (bits : List Nat) : List Nat :=
  (List.range size.height.toNat).foldl
    (fun b (y : Nat) => alphaRow (out_stride * (y : Int)) size.width b) bits

/-- The unlocked part of `ReadVideoFrame` (lines 106-124): allocate the image,
scale into it, force the alpha channel. -/
def ReadVideoFrame.produce (Scale : FastScaler) (width height : Nat) (data : List Nat)
    (stride : Int) (format : PixelFormat) (image_size : QSize) : QImage :=
  let image := QImage.create image_size
  let out_stride := image.bytesPerLine
  let out_data := Scale width height data stride format
    image_size.width image_size.height out_stride PIX_FMT_BGRA image.bits
  { image with bits := forceAlpha out_stride image_size out_data }

/-- The second locked block of `ReadVideoFrame` (lines 126-130): store the
image; `NeedsUpdate` is emitted. -/
def ReadVideoFrame.store (s : SharedData) (image : QImage) : SharedData × Bool :=
  ({ s with m_image := image }, true)

/-- The method `ReadVideoFrame` (lines 76-132) run without interruption. The
flag of the result tells whether `NeedsUpdate` was emitted, that is, whether
the frame was accepted. -/
def ReadVideoFrame (ANY : Int) (Scale : FastScaler) (s : SharedData) (width height : Nat)
    (data : List Nat) (stride : Int) (format : PixelFormat) (timestamp : Int) :
    SharedData × Bool :=
  match ReadVideoFrame.locked ANY s width height timestamp with
  | none => (s, false)
  | some (s2, image_size) =>
    ReadVideoFrame.store s2
      (ReadVideoFrame.produce Scale width height data stride format image_size)

/-- The handler `showEvent` (lines 134-138). -/
def showEvent (s : SharedData) : SharedData :=
  { s with m_is_visible := true }

/-- The handler `hideEvent` (lines 140-144). -/
def hideEvent (s : SharedData) : SharedData :=
  { s with m_is_visible := false }

/-- The handler `resizeEvent` (lines 146-150); `W` and `H` are the widget's
`width()` and `height()`. -/
def resizeEvent (s : SharedData) (W H : Int) : SharedData :=
  { s with m_widget_size := QSize.mk (W - 2) (H - 2) }

/-- The handler `paintEvent` (lines 152-183): the rectangle the image is drawn
into, or `none` when the image is null and nothing is drawn. `W` and `H` are
the widget's `width()` and `height()`, which are not negative, so `W - 2` and
`H - 2` do not overflow; the differences of line 172 are wrapped. -/
def paintEvent (s : SharedData) (W H : Int) : Option QRect :=
  let img := s.m_image
  let source_size := s.m_source_size
  if !img.isNull then
    let out_size := CalculateScaledSize source_size (QSize.mk (W - 2) (H - 2))
    let out_pos := QPoint.mk (Int.tdiv (wrap32 (W - out_size.width)) 2)
      (Int.tdiv (wrap32 (H - out_size.height)) 2)
    some (QRect.mk out_pos out_size)
  else none

/-! ## Sequences of calls -/

/-- The arguments of one call of `ReadVideoFrame`. -/
structure Frame where
  width : Nat
  height : Nat
  data : List Nat
  stride : Int
  format : PixelFormat
  timestamp : Int
deriving DecidableEq, Repr

/-- One call of `ReadVideoFrame` on the arguments `f`. -/
def readFrame (ANY : Int) (Scale : FastScaler) (s : SharedData) (f : Frame) : SharedData × Bool :=
  ReadVideoFrame ANY Scale s f.width f.height f.data f.stride f.format f.timestamp

/-- Feed the frames in order with nothing in between: the final shared data
and the timestamps of the accepted frames, in order. -/
def readFrames (ANY : Int) (Scale : FastScaler) : SharedData → List Frame → SharedData × List Int
  | s, [] => (s, [])
  | s, f :: fs =>
    let r := readFrame ANY Scale s f
    let rest := readFrames ANY Scale r.1 fs
    (rest.1, if r.2 then f.timestamp :: rest.2 else rest.2)

/-- The timestamp check of lines 92-98 on its own, run over a list of
timestamps from the deadline `d` with the period `p`: the timestamps that pass. -/
def pacedTimestamps (ANY p : Int) : Int → List Int → List Int
  | _, [] => []
  | d, t :: ts =>
    if d = ANY then t :: pacedTimestamps ANY p (t + p) ts
    else if t < d - p then pacedTimestamps ANY p d ts
    else t :: pacedTimestamps ANY p (max (d + p) t) ts

/-- The number of timestamps of `ts` in the window `[w, w + 1000000)`. -/
def countInWindow (w : Int) (ts : List Int) : Nat :=
  (ts.filter (fun t => decide (w ≤ t ∧ t < w + 1000000))).length

/-- The entry points of the previewer. -/
inductive Op where
  | ReadVideoFrame (f : Frame)
  | Reset
  | SetFrameRate (frame_rate : Nat)
  | GetNextVideoTimestamp
  | showEvent
  | hideEvent
  | resizeEvent (W H : Int)
  | paintEvent (W H : Int)
deriving DecidableEq, Repr

/-- The shared data after one entry point has run. -/
def step (ANY : Int) (Scale : FastScaler) (s : SharedData) : Op → SharedData
  | Op.ReadVideoFrame f => (readFrame ANY Scale s f).1
  | Op.Reset => (Reset s).1
  | Op.SetFrameRate r => SetFrameRate s r
  | Op.GetNextVideoTimestamp => s
  | Op.showEvent => showEvent s
  | Op.hideEvent => hideEvent s
  | Op.resizeEvent W H => resizeEvent s W H
  | Op.paintEvent _ _ => s

/-- The shared data after a sequence of entry points. -/
def run (ANY : Int) (Scale : FastScaler) (s : SharedData) (ops : List Op) : SharedData :=
  ops.foldl (step ANY Scale) s

/-- A concrete value for the sentinel `SINK_TIMESTAMP_ANY`, the least `int64_t`;
used for concrete runs only. -/
def sentinel : Int := -9223372036854775808

/-- A scaler that leaves the destination buffer as it was; used for concrete runs. -/
def scaleNothing : FastScaler :=
  fun _ _ _ _ _ _ _ _ _ out => out

/-- A visible previewer with a `4 x 4` surface, the given frame rate and
the given deadline; used for concrete runs. -/
def shown (frame_rate : Nat) (next : Int) : SharedData :=
  { m_image := QImage.null
    m_source_size := QSize.mk 0 0
    m_widget_size := QSize.mk 4 4
    m_is_visible := true
    m_frame_rate := frame_rate
    m_next_frame_time := next }

/-- A `2 x 2` frame with the given timestamp; used for concrete runs. -/
def frameAt (timestamp : Int) : Frame :=
  { width := 2, height := 2, data := [], stride := 8, format := 0, timestamp := timestamp }

/-- A frame of the given dimensions and timestamp; used for concrete runs. -/
def frameOf (width height : Nat) (timestamp : Int) : Frame :=
  { width := width, height := height, data := [], stride := 4 * (width : Int), format := 0,
    timestamp := timestamp }

/-! ## The lock-held sections as atomic steps -/

/-- A call of `ReadVideoFrame` between its two locked blocks: its arguments and
its local `image_size`. -/
structure Pending where
  frame : Frame
  image_size : QSize
deriving DecidableEq, Repr

/-- The previewer as the holders of the lock see it: the shared data, the call
of `ReadVideoFrame` that has left its first locked block and not yet entered
its second one (there is one producer), and, as a record for the proofs, the
dimensions of the source frame from which `m_image` was produced (`none` while
no image has been stored since construction or `Reset`). -/
structure Observed where
  shared : SharedData
  pending : Option Pending
  imageSource : Option QSize
deriving DecidableEq, Repr

/-- The lock-held sections, each one atomic step. -/
inductive LockStep where
  | readBegin (f : Frame)
  | readEnd
  | Reset
  | SetFrameRate (frame_rate : Nat)
  | GetNextVideoTimestamp
  | showEvent
  | hideEvent
  | resizeEvent (W H : Int)
  | paintSnapshot
deriving DecidableEq, Repr

/-- The state after construction. -/
def observedInit (ANY : Int) : Observed :=
  { shared := init ANY, pending := none, imageSource := none }

/-- One lock-held section. `readBegin` is the first locked block of
`ReadVideoFrame` (lines 80-104) and is taken only when no call is in flight;
`readEnd` is the scaling of the call in flight followed by its second locked
block (lines 106-130); `paintSnapshot` is the locked block of `paintEvent`
(lines 160-164), which reads and writes nothing. -/
def lockStep (ANY : Int) (Scale : FastScaler) (st : Observed) : LockStep → Observed
  | LockStep.readBegin f =>
    match st.pending with
    | some _ => st
    | none =>
      match ReadVideoFrame.locked ANY st.shared f.width f.height f.timestamp with
      | none => st
      | some (s2, image_size) =>
        { st with shared := s2, pending := some ⟨f, image_size⟩ }
  | LockStep.readEnd =>
    match st.pending with
    | none => st
    | some p =>
      { shared := (ReadVideoFrame.store st.shared
          (ReadVideoFrame.produce Scale p.frame.width p.frame.height p.frame.data
            p.frame.stride p.frame.format p.image_size)).1
        pending := none
        imageSource := some (QSize.mk (toInt32 p.frame.width) (toInt32 p.frame.height)) }
  | LockStep.Reset => { st with shared := (Reset st.shared).1, imageSource := none }
  | LockStep.SetFrameRate r => { st with shared := SetFrameRate st.shared r }
  | LockStep.GetNextVideoTimestamp => st
  | LockStep.showEvent => { st with shared := showEvent st.shared }
  | LockStep.hideEvent => { st with shared := hideEvent st.shared }
  | LockStep.resizeEvent W H => { st with shared := resizeEvent st.shared W H }
  | LockStep.paintSnapshot => st

/-- The state after a sequence of lock-held sections. -/
def lockRun (ANY : Int) (Scale : FastScaler) (st : Observed) (steps : List LockStep) : Observed :=
  steps.foldl (lockStep ANY Scale) st

/-- Lock-held sections that follow the first locked block of a call and leave
its capture alone: no `resizeEvent`, and no further frame passes a first locked
block (a `readBegin` among them changes nothing). -/
def keepsCapture (ANY : Int) (Scale : FastScaler) : Observed → List LockStep → Prop
  | _, [] => True
  | st, a :: steps =>
    (match a with
      | LockStep.readBegin g => lockStep ANY Scale st (LockStep.readBegin g) = st
      | LockStep.resizeEvent _ _ => False
      | _ => True) ∧
    keepsCapture ANY Scale (lockStep ANY Scale st a) steps

/-- What the locked block of `paintEvent` copies: `m_image` and `m_source_size`. -/
def paintSnapshot (st : Observed) : QImage × QSize :=
  (st.shared.m_image, st.shared.m_source_size)

/-- The aggregate is consistent when a present image was produced from a source
frame whose dimensions are the stored `m_source_size`. -/
def Consistent (st : Observed) : Prop :=
  (paintSnapshot st).1.isNull = false → st.imageSource = some (paintSnapshot st).2

instance (st : Observed) : Decidable (Consistent st) := by
  unfold Consistent
  exact inferInstance

end VideoPreviewer

/-! ## Geometry: `CalculateScaledSize` -/

theorem tdiv_two_bounds (a : Int) (ha : 0 ≤ a) :
    0 ≤ Int.tdiv a 2 ∧ 2 * Int.tdiv a 2 ≤ a ∧ a < 2 * Int.tdiv a 2 + 2 := by
  rw [Int.tdiv_eq_ediv ha (by norm_num)]
  omega

/-- Rounded quotient `(n + d / 2) / d` of non-negative `n` by positive `d`: it is
non-negative and `-d < 2 * (q * d - n) ≤ d`. -/
theorem rounded_div_spec (n d : Int) (hn : 0 ≤ n) (hd : 0 < d) :
    0 ≤ Int.tdiv (n + Int.tdiv d 2) d ∧
    2 * (Int.tdiv (n + Int.tdiv d 2) d * d - n) ≤ d ∧
    -d < 2 * (Int.tdiv (n + Int.tdiv d 2) d * d - n) := by
  obtain ⟨h0, h1, h2⟩ := tdiv_two_bounds d hd.le
  rw [Int.tdiv_eq_ediv (by linarith) hd.le]
  have e1 := Int.ediv_add_emod (n + Int.tdiv d 2) d
  have e2 := Int.emod_nonneg (n + Int.tdiv d 2) hd.ne.symm
  have e3 := Int.emod_lt_of_pos (n + Int.tdiv d 2) hd
  have e4 : 0 ≤ (n + Int.tdiv d 2) / d := Int.ediv_nonneg (by linarith) hd.le
  refine ⟨e4, ?_, ?_⟩ <;> nlinarith

/-- Rounded quotient is at most `b` when `n ≤ b * d`. -/
theorem rounded_div_le (n d b : Int) (hn : 0 ≤ n) (hd : 0 < d) (h : n ≤ b * d) :
    Int.tdiv (n + Int.tdiv d 2) d ≤ b := by
  obtain ⟨h0, h1, h2⟩ := tdiv_two_bounds d hd.le
  rw [Int.tdiv_eq_ediv (by linarith) hd.le]
  have : (n + Int.tdiv d 2) / d < b + 1 := Int.ediv_lt_of_lt_mul hd (by nlinarith)
  omega

theorem wrap32_eq (x : Int) (h0 : -2 ^ 31 ≤ x) (h1 : x < 2 ^ 31) : wrap32 x = x := by
  unfold wrap32
  omega

theorem wrap32_range (x : Int) : -2 ^ 31 ≤ wrap32 x ∧ wrap32 x < 2 ^ 31 := by
  unfold wrap32
  omega

theorem wrap32_le_self (x : Int) (h : 0 ≤ x) : wrap32 x ≤ x := by
  unfold wrap32
  omega

/-- A sum of a wrapped value and a half that comes out positive did not wrap. -/
theorem wrap32_add_pos (n k : Int) (hn : -2 ^ 31 ≤ n ∧ n < 2 ^ 31) (hk : 0 ≤ k ∧ k < 2 ^ 30)
    (h : 0 < wrap32 (n + k)) : wrap32 (n + k) = n + k := by
  unfold wrap32 at h ⊢
  omega

/-- Truncating division by a positive divisor. -/
theorem tdiv_pos_divisor (n d : Int) (hd : 0 < d) :
    (n ≤ 0 → n ≤ Int.tdiv n d ∧ Int.tdiv n d ≤ 0) ∧
    (0 ≤ n → Int.tdiv n d = n / d ∧ 0 ≤ n / d ∧ n / d ≤ n) := by
  constructor
  · intro hn
    have e : Int.tdiv n d = -(Int.tdiv (-n) d) := by
      rw [Int.neg_tdiv, neg_neg]
    rw [e, Int.tdiv_eq_ediv (by omega) hd.le]
    have h1 : 0 ≤ (-n) / d := Int.ediv_nonneg (by omega) hd.le
    have h2 : (-n) / d ≤ -n := Int.ediv_le_self _ (by omega)
    omega
  · intro hn
    exact ⟨Int.tdiv_eq_ediv hn hd.le, Int.ediv_nonneg hn hd.le, Int.ediv_le_self _ hn⟩

/-- The wrapped rounded quotient of the code, for a wrapped numerator that is
below `b * d + 1` whenever it is positive, is at most `b`. -/
theorem wrapped_quotient_le (n d b : Int) (hd0 : 0 < d) (hd1 : d < 2 ^ 31) (hb : 0 ≤ b)
    (hn : -2 ^ 31 ≤ n ∧ n < 2 ^ 31) (h : n ≤ b * d) :
    wrap32 (Int.tdiv (wrap32 (n + wrap32 (Int.tdiv d 2))) d) ≤ b := by
  obtain ⟨k0, k1, k2⟩ := tdiv_two_bounds d hd0.le
  rw [wrap32_eq (Int.tdiv d 2) (by omega) (by omega)]
  obtain ⟨s0, s1⟩ := wrap32_range (n + Int.tdiv d 2)
  obtain ⟨tneg, tpos⟩ := tdiv_pos_divisor (wrap32 (n + Int.tdiv d 2)) d hd0
  by_cases hs : 0 < wrap32 (n + Int.tdiv d 2)
  · have hS := wrap32_add_pos n (Int.tdiv d 2) hn ⟨k0, by omega⟩ hs
    obtain ⟨t1, t2, t3⟩ := tpos hs.le
    rw [t1, wrap32_eq _ (by omega) (by omega), hS]
    have : (n + Int.tdiv d 2) / d < b + 1 := Int.ediv_lt_of_lt_mul hd0 (by nlinarith)
    omega
  · obtain ⟨t1, t2⟩ := tneg (by omega)
    rw [wrap32_eq _ (by omega) (by omega)]
    omega

/-- Claim C2: for a source size and a bounds size with strictly positive width
and height (`QSize` holds `int`s, so the source dimensions are below `2 ^ 31`),
the size returned by `CalculateScaledSize`, computed in the wrapping 32-bit
arithmetic of the code, fits within the bounds on both axes. -/
theorem CalculateScaledSize_fits (inp out : QSize)
    (hiw : 0 < inp.width) (hih : 0 < inp.height) (how : 0 < out.width) (hoh : 0 < out.height)
    (hiw31 : inp.width < 2 ^ 31) (hih31 : inp.height < 2 ^ 31) :
    (CalculateScaledSize inp out).width ≤ out.width ∧
    (CalculateScaledSize inp out).height ≤ out.height := by
  have p1 : 0 ≤ inp.width * out.height := by positivity
  have p2 : 0 ≤ out.width * inp.height := by positivity
  have a1 := wrap32_le_self _ p1
  have a2 := wrap32_le_self _ p2
  have comm : out.height * inp.width = inp.width * out.height := mul_comm _ _
  unfold CalculateScaledSize
  split_ifs with h1 h2
  · exact h1
  · refine ⟨le_refl _, ?_⟩
    apply wrapped_quotient_le _ _ _ hiw hiw31 hoh.le (wrap32_range _)
    linarith
  · refine ⟨?_, le_refl _⟩
    apply wrapped_quotient_le _ _ _ hih hih31 how.le (wrap32_range _)
    rw [comm]
    linarith

theorem CalculateScaledSize_fits_witness :
    (CalculateScaledSize (QSize.mk 70000 2000) (QSize.mk 2000 61400)).width ≤ 2000 ∧
    (CalculateScaledSize (QSize.mk 70000 2000) (QSize.mk 2000 61400)).height ≤ 61400 :=
  CalculateScaledSize_fits (QSize.mk 70000 2000) (QSize.mk 2000 61400)
    (by decide) (by decide) (by decide) (by decide) (by decide) (by decide)

/-! ### The exact computation and the range without overflow -/

theorem exact_no_upscale (inp out : QSize)
    (hiw : 0 < inp.width) (hih : 0 < inp.height) (how : 0 < out.width) (hoh : 0 < out.height) :
    (CalculateScaledSizeExact inp out).width ≤ inp.width ∧
    (CalculateScaledSizeExact inp out).height ≤ inp.height := by
  unfold CalculateScaledSizeExact
  split_ifs with h1 h2
  · exact ⟨le_refl _, le_refl _⟩
  · have hlt : out.width < inp.width := by
      by_contra hc
      have h3 : out.height < inp.height := by
        by_contra hd
        exact h1 ⟨by linarith, by linarith⟩
      nlinarith
    exact ⟨hlt.le, rounded_div_le _ _ _ (by positivity) hiw (by nlinarith)⟩
  · have hlt : out.height < inp.height := by
      by_contra hc
      have h3 : out.width < inp.width := by
        by_contra hd
        exact h1 ⟨by linarith, by linarith⟩
      nlinarith
    exact ⟨rounded_div_le _ _ _ (by positivity) hih (by nlinarith), hlt.le⟩

/-- When the two products with their rounding halves stay below `2 ^ 31`, no
operation of `CalculateScaledSize` wraps and the code computes the exact
result. -/
theorem CalculateScaledSize_eq_exact (inp out : QSize)
    (hiw : 0 < inp.width) (hih : 0 < inp.height) (how : 0 < out.width) (hoh : 0 < out.height)
    (h1 : inp.width * out.height + Int.tdiv inp.height 2 < 2 ^ 31)
    (h2 : out.width * inp.height + Int.tdiv inp.width 2 < 2 ^ 31) :
    CalculateScaledSize inp out = CalculateScaledSizeExact inp out := by
  have a0 : 0 ≤ inp.width * out.height := by positivity
  have b0 : 0 ≤ out.width * inp.height := by positivity
  have comm : out.height * inp.width = inp.width * out.height := mul_comm _ _
  obtain ⟨w0, w1, _⟩ := tdiv_two_bounds inp.width hiw.le
  obtain ⟨g0, g1, _⟩ := tdiv_two_bounds inp.height hih.le
  have iw31 : inp.width < 2 ^ 31 := by nlinarith
  have ih31 : inp.height < 2 ^ 31 := by nlinarith
  have e1 : wrap32 (inp.width * out.height) = inp.width * out.height :=
    wrap32_eq _ (by omega) (by omega)
  have e2 : wrap32 (out.width * inp.height) = out.width * inp.height :=
    wrap32_eq _ (by omega) (by omega)
  have e4 : wrap32 (Int.tdiv inp.width 2) = Int.tdiv inp.width 2 :=
    wrap32_eq _ (by omega) (by omega)
  have e5 : wrap32 (Int.tdiv inp.height 2) = Int.tdiv inp.height 2 :=
    wrap32_eq _ (by omega) (by omega)
  have e6 : wrap32 (out.width * inp.height + Int.tdiv inp.width 2)
      = out.width * inp.height + Int.tdiv inp.width 2 := wrap32_eq _ (by omega) (by omega)
  have e7 : wrap32 (inp.width * out.height + Int.tdiv inp.height 2)
      = inp.width * out.height + Int.tdiv inp.height 2 := wrap32_eq _ (by omega) (by omega)
  obtain ⟨_, q0, q1⟩ := (tdiv_pos_divisor (out.width * inp.height + Int.tdiv inp.width 2)
    inp.width hiw).2 (by omega)
  obtain ⟨_, r0, r1⟩ := (tdiv_pos_divisor (inp.width * out.height + Int.tdiv inp.height 2)
    inp.height hih).2 (by omega)
  have e8 : wrap32 (Int.tdiv (out.width * inp.height + Int.tdiv inp.width 2) inp.width)
      = Int.tdiv (out.width * inp.height + Int.tdiv inp.width 2) inp.width := by
    rw [Int.tdiv_eq_ediv (by omega) hiw.le]
    exact wrap32_eq _ (by omega) (by omega)
  have e9 : wrap32 (Int.tdiv (inp.width * out.height + Int.tdiv inp.height 2) inp.height)
      = Int.tdiv (inp.width * out.height + Int.tdiv inp.height 2) inp.height := by
    rw [Int.tdiv_eq_ediv (by omega) hih.le]
    exact wrap32_eq _ (by omega) (by omega)
  unfold CalculateScaledSize CalculateScaledSizeExact
  rw [comm, e1, e2, e4, e5, e6, e7, e8, e9]

/-- Claim C3 fails as stated: the products of `CalculateScaledSize` are 32-bit.
For the source `70000 x 2000` and the bounds `2000 x 61400` the product
`70000 * 61400` wraps to 3032704, the code takes the height-limited branch and
returns `1516 x 61400`, whose height is above the source height 2000. -/
theorem no_upscale_counterexample :
    wrap32 (70000 * 61400) = 3032704 ∧
    CalculateScaledSize (QSize.mk 70000 2000) (QSize.mk 2000 61400) = QSize.mk 1516 61400 ∧
    ¬ (CalculateScaledSize (QSize.mk 70000 2000) (QSize.mk 2000 61400)).height ≤ 2000 := by
  decide

/-- Claim C3, amended: `CalculateScaledSize` never upscales as long as its
32-bit arithmetic does not overflow. For a source size and a bounds size with
strictly positive dimensions whose products `in.width * out.height` and
`out.width * in.height`, each with its rounding half added, are below `2 ^ 31`
(all dimensions up to 46340 are), the result is at most the source on both
axes; and, for all sizes, a source that already fits within the bounds is
returned unchanged. -/
theorem CalculateScaledSize_no_upscale (inp out : QSize)
    (hiw : 0 < inp.width) (hih : 0 < inp.height) (how : 0 < out.width) (hoh : 0 < out.height)
    (h1 : inp.width * out.height + Int.tdiv inp.height 2 < 2 ^ 31)
    (h2 : out.width * inp.height + Int.tdiv inp.width 2 < 2 ^ 31) :
    (CalculateScaledSize inp out).width ≤ inp.width ∧
    (CalculateScaledSize inp out).height ≤ inp.height ∧
    (∀ a b : QSize, a.width ≤ b.width ∧ a.height ≤ b.height → CalculateScaledSize a b = a) := by
  rw [CalculateScaledSize_eq_exact inp out hiw hih how hoh h1 h2]
  obtain ⟨e1, e2⟩ := exact_no_upscale inp out hiw hih how hoh
  refine ⟨e1, e2, fun a b hfit => ?_⟩
  unfold CalculateScaledSize
  rw [if_pos hfit]

theorem CalculateScaledSize_no_upscale_witness :
    (CalculateScaledSize (QSize.mk 1920 1080) (QSize.mk 640 300)).width ≤ 1920 ∧
    (CalculateScaledSize (QSize.mk 1920 1080) (QSize.mk 640 300)).height ≤ 1080 ∧
    (∀ a b : QSize, a.width ≤ b.width ∧ a.height ≤ b.height → CalculateScaledSize a b = a) :=
  CalculateScaledSize_no_upscale (QSize.mk 1920 1080) (QSize.mk 640 300)
    (by decide) (by decide) (by decide) (by decide) (by decide) (by decide)

/-- Claim C4 fails as stated: for the source `70000 x 2000` and the bounds
`2000 x 61400`, which the source does not fit, `srcW * boundsH > boundsW * srcH`
over the integers, so the width is the limiting axis; the 32-bit code compares
the wrapped products, takes the other branch and returns `1516 x 61400`, with
the width not driven to its bound 2000. -/
theorem limiting_axis_counterexample :
    (70000 : Int) * 61400 > 2000 * 2000 ∧
    ¬ ((70000 : Int) ≤ 2000 ∧ (2000 : Int) ≤ 61400) ∧
    CalculateScaledSize (QSize.mk 70000 2000) (QSize.mk 2000 61400) = QSize.mk 1516 61400 ∧
    (CalculateScaledSize (QSize.mk 70000 2000) (QSize.mk 2000 61400)).width ≠ 2000 := by
  decide

/-- Claim C4, amended: when a positive source size does not fit within positive
bounds and the 32-bit arithmetic does not overflow (the products
`srcW * boundsH` and `boundsW * srcH`, each with its rounding half added, are
below `2 ^ 31`), `CalculateScaledSize` drives the limiting axis, chosen by
comparing `srcW * boundsH` with `boundsW * srcH`, exactly to its bound, and
the other axis is `(bound * srcOther + srcLimiting / 2) / srcLimiting`, the
integer nearest to `bound * srcOther / srcLimiting` with ties rounded up: twice
the absolute difference between `result_other * srcLimiting` and
`bound * srcOther` is at most `srcLimiting`, and twice the signed difference is
above `-srcLimiting`. Source `1920 x 1080` into bounds `640 x 300` gives
`533 x 300`. -/
theorem CalculateScaledSize_limiting_axis (inp out : QSize)
    (hiw : 0 < inp.width) (hih : 0 < inp.height) (how : 0 < out.width) (hoh : 0 < out.height)
    (h1 : inp.width * out.height + Int.tdiv inp.height 2 < 2 ^ 31)
    (h2 : out.width * inp.height + Int.tdiv inp.width 2 < 2 ^ 31)
    (hfit : ¬ (inp.width ≤ out.width ∧ inp.height ≤ out.height)) :
    (inp.width * out.height > out.width * inp.height →
      (CalculateScaledSize inp out).width = out.width ∧
      (CalculateScaledSize inp out).height
        = Int.tdiv (out.width * inp.height + Int.tdiv inp.width 2) inp.width ∧
      2 * |(CalculateScaledSize inp out).height * inp.width - out.width * inp.height|
        ≤ inp.width ∧
      -inp.width
        < 2 * ((CalculateScaledSize inp out).height * inp.width - out.width * inp.height)) ∧
    (¬ inp.width * out.height > out.width * inp.height →
      (CalculateScaledSize inp out).height = out.height ∧
      (CalculateScaledSize inp out).width
        = Int.tdiv (out.height * inp.width + Int.tdiv inp.height 2) inp.height ∧
      2 * |(CalculateScaledSize inp out).width * inp.height - out.height * inp.width|
        ≤ inp.height ∧
      -inp.height
        < 2 * ((CalculateScaledSize inp out).width * inp.height - out.height * inp.width)) ∧
    CalculateScaledSize (QSize.mk 1920 1080) (QSize.mk 640 300) = QSize.mk 533 300 := by
  rw [CalculateScaledSize_eq_exact inp out hiw hih how hoh h1 h2]
  refine ⟨fun h2 => ?_, fun h2 => ?_, by decide⟩
  · obtain ⟨_, hle, hgt⟩ := rounded_div_spec (out.width * inp.height) inp.width
      (by positivity) hiw
    rw [CalculateScaledSizeExact, if_neg hfit, if_pos h2]
    refine ⟨rfl, rfl, ?_, hgt⟩
    rcases abs_cases ((out.width * inp.height + inp.width.tdiv 2).tdiv inp.width * inp.width
      - out.width * inp.height) with ⟨h, _⟩ | ⟨h, _⟩ <;> rw [h] <;> linarith
  · obtain ⟨_, hle, hgt⟩ := rounded_div_spec (out.height * inp.width) inp.height
      (by positivity) hih
    rw [CalculateScaledSizeExact, if_neg hfit, if_neg h2]
    refine ⟨rfl, rfl, ?_, hgt⟩
    rcases abs_cases ((out.height * inp.width + inp.height.tdiv 2).tdiv inp.height * inp.height
      - out.height * inp.width) with ⟨h, _⟩ | ⟨h, _⟩ <;> rw [h] <;> linarith

theorem CalculateScaledSize_limiting_axis_witness :
    (CalculateScaledSize (QSize.mk 1920 1080) (QSize.mk 640 300)).height = 300 ∧
    (CalculateScaledSize (QSize.mk 1920 1080) (QSize.mk 640 300)).width
      = Int.tdiv (300 * 1920 + Int.tdiv 1080 2) 1080 ∧
    2 * |(CalculateScaledSize (QSize.mk 1920 1080) (QSize.mk 640 300)).width * 1080
      - 300 * 1920| ≤ 1080 ∧
    -1080 < 2 * ((CalculateScaledSize (QSize.mk 1920 1080) (QSize.mk 640 300)).width * 1080
      - 300 * 1920) :=
  (CalculateScaledSize_limiting_axis (QSize.mk 1920 1080) (QSize.mk 640 300)
    (by decide) (by decide) (by decide) (by decide) (by decide) (by decide)
    (by decide)).2.1 (by decide)

theorem mul_lt_two_pow_31 (a b : Int) (ha0 : 0 ≤ a) (ha : a ≤ 32767) (hb0 : 0 ≤ b)
    (hb : b ≤ 32767) : 0 ≤ a * b ∧ a * b ≤ 1073676289 := by
  constructor
  · positivity
  · nlinarith

/-- Claim C19: no 32-bit overflow in `CalculateScaledSize` for realistic sizes.
When the four dimensions lie in `[1, 32767]` the products
`in.width * out.height` and `out.width * in.height` and the rounded numerators
`out.width * in.height + in.width / 2` and `out.height * in.width + in.height / 2`
are below `2 ^ 31`, and the result computed with wrapping 32-bit arithmetic
(`CalculateScaledSize`, the code) is the result computed over the integers
(`CalculateScaledSizeExact`). -/
theorem CalculateScaledSize32_eq (inp out : QSize)
    (hiw : 1 ≤ inp.width ∧ inp.width ≤ 32767) (hih : 1 ≤ inp.height ∧ inp.height ≤ 32767)
    (how : 1 ≤ out.width ∧ out.width ≤ 32767) (hoh : 1 ≤ out.height ∧ out.height ≤ 32767) :
    inp.width * out.height < 2 ^ 31 ∧
    out.width * inp.height < 2 ^ 31 ∧
    out.width * inp.height + Int.tdiv inp.width 2 < 2 ^ 31 ∧
    out.height * inp.width + Int.tdiv inp.height 2 < 2 ^ 31 ∧
    CalculateScaledSize inp out = CalculateScaledSizeExact inp out := by
  obtain ⟨a0, a1⟩ := mul_lt_two_pow_31 inp.width out.height (by omega) hiw.2 (by omega) hoh.2
  obtain ⟨b0, b1⟩ := mul_lt_two_pow_31 out.width inp.height (by omega) how.2 (by omega) hih.2
  have comm : out.height * inp.width = inp.width * out.height := mul_comm _ _
  obtain ⟨w0, w1, _⟩ := tdiv_two_bounds inp.width (by omega)
  obtain ⟨g0, g1, _⟩ := tdiv_two_bounds inp.height (by omega)
  refine ⟨by omega, by omega, by omega, by omega, ?_⟩
  exact CalculateScaledSize_eq_exact inp out (by omega) (by omega) (by omega) (by omega)
    (by omega) (by omega)

theorem CalculateScaledSize32_eq_witness :
    (1920 : Int) * 300 < 2 ^ 31 ∧
    (640 : Int) * 1080 < 2 ^ 31 ∧
    (640 : Int) * 1080 + Int.tdiv 1920 2 < 2 ^ 31 ∧
    (300 : Int) * 1920 + Int.tdiv 1080 2 < 2 ^ 31 ∧
    CalculateScaledSize (QSize.mk 1920 1080) (QSize.mk 640 300)
      = CalculateScaledSizeExact (QSize.mk 1920 1080) (QSize.mk 640 300) :=
  CalculateScaledSize32_eq (QSize.mk 1920 1080) (QSize.mk 640 300)
    (by decide) (by decide) (by decide) (by decide)

/-! ## Geometry at render time -/

namespace VideoPreviewer

theorem period_nonneg (s : SharedData) : 0 ≤ period s := by
  unfold period
  exact Int.ofNat_nonneg _

theorem period_le (s : SharedData) : period s ≤ 1000000 := by
  unfold period
  have : 1000000 / s.m_frame_rate ≤ 1000000 := Nat.div_le_self _ _
  exact_mod_cast this

theorem wrap64_eq (x : Int) (h0 : INT64_MIN ≤ x) (h1 : x ≤ INT64_MAX) : wrap64 x = x := by
  unfold INT64_MIN at h0
  unfold INT64_MAX at h1
  unfold wrap64
  omega

/-- A frame that reaches the timestamp check with the deadline at the sentinel
is accepted. -/
theorem ReadVideoFrame_any (ANY : Int) (Scale : FastScaler) (s : SharedData)
    (width height : Nat) (data : List Nat) (stride : Int) (format : PixelFormat)
    (timestamp : Int) (hv : s.m_is_visible = true) (hw : 2 ≤ width) (hh : 2 ≤ height)
    (hsw : 2 ≤ s.m_widget_size.width) (hsh : 2 ≤ s.m_widget_size.height)
    (hany : s.m_next_frame_time = ANY) :
    (ReadVideoFrame ANY Scale s width height data stride format timestamp).2 = true ∧
    (ReadVideoFrame ANY Scale s width height data stride format timestamp).1.m_next_frame_time
      = wrap64 (timestamp + period s) ∧
    (ReadVideoFrame ANY Scale s width height data stride format timestamp).1.m_frame_rate
      = s.m_frame_rate ∧
    (ReadVideoFrame ANY Scale s width height data stride format timestamp).1.m_widget_size
      = s.m_widget_size ∧
    (ReadVideoFrame ANY Scale s width height data stride format timestamp).1.m_is_visible
      = s.m_is_visible := by
  have hg : ¬ (width < 2 ∨ height < 2 ∨ s.m_widget_size.width < 2 ∨ s.m_widget_size.height < 2) := by
    omega
  simp [ReadVideoFrame, ReadVideoFrame.locked, ReadVideoFrame.store, hv, hg, hany]

/-- A frame that reaches the timestamp check too early is discarded. -/
theorem ReadVideoFrame_early (ANY : Int) (Scale : FastScaler) (s : SharedData)
    (width height : Nat) (data : List Nat) (stride : Int) (format : PixelFormat)
    (timestamp : Int) (hany : s.m_next_frame_time ≠ ANY)
    (hlt : timestamp < wrap64 (s.m_next_frame_time - period s)) :
    ReadVideoFrame ANY Scale s width height data stride format timestamp = (s, false) := by
  unfold ReadVideoFrame ReadVideoFrame.locked
  by_cases hv : s.m_is_visible = true
  · by_cases hg : width < 2 ∨ height < 2 ∨ s.m_widget_size.width < 2 ∨ s.m_widget_size.height < 2
    · simp [hv, hg]
    · simp [hv, hg, hany, hlt]
  · simp [hv]

/-- A frame that reaches the timestamp check in time is accepted. -/
theorem ReadVideoFrame_due (ANY : Int) (Scale : FastScaler) (s : SharedData)
    (width height : Nat) (data : List Nat) (stride : Int) (format : PixelFormat)
    (timestamp : Int) (hv : s.m_is_visible = true) (hw : 2 ≤ width) (hh : 2 ≤ height)
    (hsw : 2 ≤ s.m_widget_size.width) (hsh : 2 ≤ s.m_widget_size.height)
    (hany : s.m_next_frame_time ≠ ANY)
    (hge : ¬ timestamp < wrap64 (s.m_next_frame_time - period s)) :
    (ReadVideoFrame ANY Scale s width height data stride format timestamp).2 = true ∧
    (ReadVideoFrame ANY Scale s width height data stride format timestamp).1.m_next_frame_time
      = max (wrap64 (s.m_next_frame_time + period s)) timestamp ∧
    (ReadVideoFrame ANY Scale s width height data stride format timestamp).1.m_frame_rate
      = s.m_frame_rate ∧
    (ReadVideoFrame ANY Scale s width height data stride format timestamp).1.m_widget_size
      = s.m_widget_size ∧
    (ReadVideoFrame ANY Scale s width height data stride format timestamp).1.m_is_visible
      = s.m_is_visible := by
  have hg : ¬ (width < 2 ∨ height < 2 ∨ s.m_widget_size.width < 2 ∨ s.m_widget_size.height < 2) := by
    omega
  simp [ReadVideoFrame, ReadVideoFrame.locked, ReadVideoFrame.store, hv, hg, hany, hge]

/-- A frame that fails the visibility or the size check is discarded. -/
theorem ReadVideoFrame_guard (ANY : Int) (Scale : FastScaler) (s : SharedData)
    (width height : Nat) (data : List Nat) (stride : Int) (format : PixelFormat)
    (timestamp : Int)
    (h : s.m_is_visible = false ∨ width < 2 ∨ height < 2 ∨
      s.m_widget_size.width < 2 ∨ s.m_widget_size.height < 2) :
    ReadVideoFrame ANY Scale s width height data stride format timestamp = (s, false) := by
  unfold ReadVideoFrame ReadVideoFrame.locked
  by_cases hv : s.m_is_visible = true
  · have hg : width < 2 ∨ height < 2 ∨ s.m_widget_size.width < 2 ∨ s.m_widget_size.height < 2 := by
      rcases h with h | h
      · rw [hv] at h; cases h
      · exact h
    simp [hv, hg]
  · simp [hv]

/-- Every call of `ReadVideoFrame` either discards the frame and leaves the
shared data as it was, or accepts it, and then only the image, the source size
and the deadline are written, the deadline by one of the two pacing rules. -/
theorem ReadVideoFrame_cases (ANY : Int) (Scale : FastScaler) (s : SharedData)
    (width height : Nat) (data : List Nat) (stride : Int) (format : PixelFormat)
    (timestamp : Int) :
    ReadVideoFrame ANY Scale s width height data stride format timestamp = (s, false) ∨
    ((ReadVideoFrame ANY Scale s width height data stride format timestamp).2 = true ∧
      (ReadVideoFrame ANY Scale s width height data stride format timestamp).1.m_frame_rate
        = s.m_frame_rate ∧
      (ReadVideoFrame ANY Scale s width height data stride format timestamp).1.m_widget_size
        = s.m_widget_size ∧
      (ReadVideoFrame ANY Scale s width height data stride format timestamp).1.m_is_visible
        = s.m_is_visible ∧
      ((s.m_next_frame_time = ANY ∧
        (ReadVideoFrame ANY Scale s width height data stride format timestamp).1.m_next_frame_time
          = wrap64 (timestamp + period s)) ∨
       (s.m_next_frame_time ≠ ANY ∧ ¬ timestamp < wrap64 (s.m_next_frame_time - period s) ∧
        (ReadVideoFrame ANY Scale s width height data stride format timestamp).1.m_next_frame_time
          = max (wrap64 (s.m_next_frame_time + period s)) timestamp))) := by
  by_cases hg : s.m_is_visible = false ∨ width < 2 ∨ height < 2 ∨
      s.m_widget_size.width < 2 ∨ s.m_widget_size.height < 2
  · exact Or.inl (ReadVideoFrame_guard ANY Scale s width height data stride format timestamp hg)
  · have hv : s.m_is_visible = true := by
      cases hb : s.m_is_visible
      · exact absurd (Or.inl hb) hg
      · rfl
    have hw : 2 ≤ width := by omega
    have hh : 2 ≤ height := by omega
    have hsw : 2 ≤ s.m_widget_size.width := by omega
    have hsh : 2 ≤ s.m_widget_size.height := by omega
    by_cases hany : s.m_next_frame_time = ANY
    · obtain ⟨a, b, c, d, e⟩ := ReadVideoFrame_any ANY Scale s width height data stride format
        timestamp hv hw hh hsw hsh hany
      exact Or.inr ⟨a, c, d, e, Or.inl ⟨hany, b⟩⟩
    · by_cases hlt : timestamp < wrap64 (s.m_next_frame_time - period s)
      · exact Or.inl
          (ReadVideoFrame_early ANY Scale s width height data stride format timestamp hany hlt)
      · obtain ⟨a, b, c, d, e⟩ := ReadVideoFrame_due ANY Scale s width height data stride format
          timestamp hv hw hh hsw hsh hany hlt
        exact Or.inr ⟨a, c, d, e, Or.inr ⟨hany, hlt, b⟩⟩

/-- Claim C1 fails as stated: the sums and the difference of lines 93-97 are
`int64_t` operations. From the sentinel, a frame with timestamp `INT64_MAX` at
frame rate 10 is accepted and the stored deadline is the wrapped sum
`-9223372036854675809`, not `timestamp + period`; and with the deadline
`INT64_MIN + 1` a frame with timestamp 0 is discarded although
`0 < deadline - period` is false over the integers. -/
theorem pacing_decision_counterexample :
    (ReadVideoFrame sentinel scaleNothing (shown 10 sentinel) 2 2 [] 8 0
      9223372036854775807).2 = true ∧
    (ReadVideoFrame sentinel scaleNothing (shown 10 sentinel) 2 2 [] 8 0
      9223372036854775807).1.m_next_frame_time = -9223372036854675809 ∧
    (-9223372036854675809 : Int) ≠ 9223372036854775807 + 100000 ∧
    (-9223372036854775807 : Int) ≠ sentinel ∧
    (ReadVideoFrame sentinel scaleNothing (shown 10 (-9223372036854775807)) 2 2 [] 8 0
      0).2 = false ∧
    ¬ ((0 : Int) < -9223372036854775807 - 100000) := by
  decide

/-- Claim C1, amended: the pacing decision of `ReadVideoFrame` for a visible
surface, frame and surface dimensions at least 2, an `int64_t` timestamp and
`p = 1000000 / m_frame_rate` (integer division), as long as the `int64_t`
arithmetic does not overflow. With the deadline at the sentinel and
`timestamp + p ≤ INT64_MAX` the frame is accepted and the deadline becomes
`timestamp + p`. With another deadline such that
`INT64_MIN ≤ deadline - p` and `deadline + p ≤ INT64_MAX`, the frame is
rejected, with the shared data unchanged, exactly when
`timestamp < deadline - p`, and in every other case it is accepted and the
deadline becomes `max (deadline + p) timestamp`. -/
theorem ReadVideoFrame_pacing_decision (ANY : Int) (Scale : FastScaler) (s : SharedData)
    (width height : Nat) (data : List Nat) (stride : Int) (format : PixelFormat)
    (timestamp p : Int) (hv : s.m_is_visible = true) (hw : 2 ≤ width) (hh : 2 ≤ height)
    (hsw : 2 ≤ s.m_widget_size.width) (hsh : 2 ≤ s.m_widget_size.height)
    (hp : p = ((1000000 / s.m_frame_rate : Nat) : Int))
    (ht : INT64_MIN ≤ timestamp ∧ timestamp ≤ INT64_MAX) :
    (s.m_next_frame_time = ANY → timestamp + p ≤ INT64_MAX →
      (ReadVideoFrame ANY Scale s width height data stride format timestamp).2 = true ∧
      (ReadVideoFrame ANY Scale s width height data stride format timestamp).1.m_next_frame_time
        = timestamp + p) ∧
    (s.m_next_frame_time ≠ ANY → INT64_MIN ≤ s.m_next_frame_time - p →
      s.m_next_frame_time + p ≤ INT64_MAX →
      ((ReadVideoFrame ANY Scale s width height data stride format timestamp).2 = false ↔
        timestamp < s.m_next_frame_time - p) ∧
      (timestamp < s.m_next_frame_time - p →
        ReadVideoFrame ANY Scale s width height data stride format timestamp = (s, false)) ∧
      (¬ timestamp < s.m_next_frame_time - p →
        (ReadVideoFrame ANY Scale s width height data stride format timestamp).2 = true ∧
        (ReadVideoFrame ANY Scale s width height data stride format timestamp).1.m_next_frame_time
          = max (s.m_next_frame_time + p) timestamp)) := by
  have hper : p = period s := hp
  subst hper
  have hp0 := period_nonneg s
  refine ⟨fun hany hmax => ?_, fun hany hlo hhi => ?_⟩
  · obtain ⟨a, b, _⟩ := ReadVideoFrame_any ANY Scale s width height data stride format
      timestamp hv hw hh hsw hsh hany
    rw [wrap64_eq _ (by linarith) hmax] at b
    exact ⟨a, b⟩
  · have e1 : wrap64 (s.m_next_frame_time - period s) = s.m_next_frame_time - period s :=
      wrap64_eq _ hlo (by linarith)
    have e2 : wrap64 (s.m_next_frame_time + period s) = s.m_next_frame_time + period s :=
      wrap64_eq _ (by linarith) hhi
    have hearly : timestamp < s.m_next_frame_time - period s →
        ReadVideoFrame ANY Scale s width height data stride format timestamp = (s, false) :=
      fun hlt => ReadVideoFrame_early ANY Scale s width height data stride format timestamp
        hany (by rw [e1]; exact hlt)
    refine ⟨⟨fun hrej => ?_, fun hlt => by rw [hearly hlt]⟩, hearly, fun hlt => ?_⟩
    · by_contra hlt
      obtain ⟨a, _⟩ := ReadVideoFrame_due ANY Scale s width height data stride format
        timestamp hv hw hh hsw hsh hany (by rw [e1]; exact hlt)
      rw [a] at hrej
      cases hrej
    · obtain ⟨a, b, _⟩ := ReadVideoFrame_due ANY Scale s width height data stride format
        timestamp hv hw hh hsw hsh hany (by rw [e1]; exact hlt)
      rw [e2] at b
      exact ⟨a, b⟩

theorem ReadVideoFrame_pacing_decision_witness :
    (ReadVideoFrame sentinel scaleNothing (shown 10 250000) 2 2 [] 8 0 150000).2 = true ∧
    (ReadVideoFrame sentinel scaleNothing (shown 10 250000) 2 2 [] 8 0 150000).1.m_next_frame_time
      = max (250000 + 100000) 150000 :=
  ((ReadVideoFrame_pacing_decision sentinel scaleNothing (shown 10 250000) 2 2 [] 8 0 150000
    100000 rfl (by decide) (by decide) (by decide) (by decide) (by decide) (by decide)).2
    (by decide) (by decide) (by decide)).2.2 (by decide)

/-- Claim C9: `ReadVideoFrame` discards the frame, with every member of the
shared data unchanged and without emitting `NeedsUpdate`, whenever the surface
is not visible, or `width < 2`, or `height < 2`, or a dimension of
`m_widget_size` is below 2, whatever the timestamp and the deadline are. -/
theorem ReadVideoFrame_discards_silently (ANY : Int) (Scale : FastScaler) (s : SharedData)
    (width height : Nat) (data : List Nat) (stride : Int) (format : PixelFormat)
    (timestamp : Int)
    (h : s.m_is_visible = false ∨ width < 2 ∨ height < 2 ∨
      s.m_widget_size.width < 2 ∨ s.m_widget_size.height < 2) :
    (ReadVideoFrame ANY Scale s width height data stride format timestamp).1 = s ∧
    (ReadVideoFrame ANY Scale s width height data stride format timestamp).2 = false := by
  rw [ReadVideoFrame_guard ANY Scale s width height data stride format timestamp h]
  exact ⟨rfl, rfl⟩

theorem ReadVideoFrame_discards_silently_witness :
    (ReadVideoFrame sentinel scaleNothing (shown 10 sentinel) 1 480 [] 8 0 0).1
      = shown 10 sentinel ∧
    (ReadVideoFrame sentinel scaleNothing (shown 10 sentinel) 1 480 [] 8 0 0).2 = false :=
  ReadVideoFrame_discards_silently sentinel scaleNothing (shown 10 sentinel) 1 480 [] 8 0 0
    (Or.inr (Or.inl (by decide)))

/-! ## `Reset` and the deadline -/

end VideoPreviewer

/-! ## Pacing: sequences of frames -/

namespace VideoPreviewer

theorem readFrame_cases (ANY : Int) (Scale : FastScaler) (s : SharedData) (f : Frame) :
    readFrame ANY Scale s f = (s, false) ∨
    ((readFrame ANY Scale s f).2 = true ∧
      (readFrame ANY Scale s f).1.m_frame_rate = s.m_frame_rate ∧
      (readFrame ANY Scale s f).1.m_widget_size = s.m_widget_size ∧
      (readFrame ANY Scale s f).1.m_is_visible = s.m_is_visible ∧
      ((s.m_next_frame_time = ANY ∧
        (readFrame ANY Scale s f).1.m_next_frame_time = wrap64 (f.timestamp + period s)) ∨
       (s.m_next_frame_time ≠ ANY ∧ ¬ f.timestamp < wrap64 (s.m_next_frame_time - period s) ∧
        (readFrame ANY Scale s f).1.m_next_frame_time
          = max (wrap64 (s.m_next_frame_time + period s)) f.timestamp))) :=
  ReadVideoFrame_cases ANY Scale s f.width f.height f.data f.stride f.format f.timestamp

theorem period_congr (s s1 : SharedData) (h : s1.m_frame_rate = s.m_frame_rate) :
    period s1 = period s := by
  unfold period
  rw [h]

/-- The difference `deadline - period` of line 95 does not wrap for a deadline
that is at least 1000000 above `INT64_MIN`. -/
theorem wrap64_sub_period (s : SharedData)
    (hd : INT64_MIN + 1000000 ≤ s.m_next_frame_time ∧ s.m_next_frame_time ≤ INT64_MAX) :
    wrap64 (s.m_next_frame_time - period s) = s.m_next_frame_time - period s := by
  have h0 := period_nonneg s
  have h1 := period_le s
  exact wrap64_eq _ (by linarith [hd.1]) (by linarith [hd.2])

/-- The sum `deadline + period` of line 97 does not wrap when the frame is in
time and its timestamp is at least 2000000 below `INT64_MAX`. -/
theorem wrap64_add_period (s : SharedData) (t : Int) (ht : InPacingRange t)
    (hd : INT64_MIN + 1000000 ≤ s.m_next_frame_time ∧ s.m_next_frame_time ≤ INT64_MAX)
    (hge : ¬ t < s.m_next_frame_time - period s) :
    wrap64 (s.m_next_frame_time + period s) = s.m_next_frame_time + period s ∧
    s.m_next_frame_time + period s ≤ INT64_MAX := by
  have h0 := period_nonneg s
  have h1 := period_le s
  have h2 : s.m_next_frame_time + period s ≤ INT64_MAX := by
    have := ht.2
    linarith
  refine ⟨wrap64_eq _ ?_ h2, h2⟩
  have : INT64_MIN ≤ INT64_MIN + 1000000 := by unfold INT64_MIN; norm_num
  linarith [hd.1]

/-- The sum `timestamp + period` of line 93 does not wrap for a timestamp in
the pacing range. -/
theorem wrap64_timestamp_add (s : SharedData) (t : Int) (ht : InPacingRange t) :
    wrap64 (t + period s) = t + period s ∧
    INT64_MIN + 1000000 ≤ t + period s ∧ t + period s ≤ INT64_MAX := by
  have h0 := period_nonneg s
  have h1 := period_le s
  obtain ⟨a, b⟩ := ht
  have c : INT64_MIN ≤ INT64_MIN + 1000000 := by unfold INT64_MIN; norm_num
  have d : INT64_MAX - 2000000 + 1000000 ≤ INT64_MAX := by unfold INT64_MAX; norm_num
  exact ⟨wrap64_eq _ (by linarith) (by linarith), by linarith, by linarith⟩

theorem readFrame_any_exact (ANY : Int) (Scale : FastScaler) (s : SharedData) (f : Frame)
    (hv : s.m_is_visible = true) (hw : 2 ≤ f.width) (hh : 2 ≤ f.height)
    (hsw : 2 ≤ s.m_widget_size.width) (hsh : 2 ≤ s.m_widget_size.height)
    (hany : s.m_next_frame_time = ANY) (ht : InPacingRange f.timestamp) :
    (readFrame ANY Scale s f).2 = true ∧
    (readFrame ANY Scale s f).1.m_next_frame_time = f.timestamp + period s ∧
    (readFrame ANY Scale s f).1.m_frame_rate = s.m_frame_rate ∧
    (readFrame ANY Scale s f).1.m_widget_size = s.m_widget_size ∧
    (readFrame ANY Scale s f).1.m_is_visible = s.m_is_visible := by
  obtain ⟨a, b, c⟩ := ReadVideoFrame_any ANY Scale s f.width f.height f.data f.stride
    f.format f.timestamp hv hw hh hsw hsh hany
  rw [(wrap64_timestamp_add s f.timestamp ht).1] at b
  exact ⟨a, b, c⟩

theorem readFrame_early_exact (ANY : Int) (Scale : FastScaler) (s : SharedData) (f : Frame)
    (hany : s.m_next_frame_time ≠ ANY)
    (hd : INT64_MIN + 1000000 ≤ s.m_next_frame_time ∧ s.m_next_frame_time ≤ INT64_MAX)
    (hlt : f.timestamp < s.m_next_frame_time - period s) :
    readFrame ANY Scale s f = (s, false) :=
  ReadVideoFrame_early ANY Scale s f.width f.height f.data f.stride f.format f.timestamp hany
    (by rw [wrap64_sub_period s hd]; exact hlt)

theorem readFrame_due_exact (ANY : Int) (Scale : FastScaler) (s : SharedData) (f : Frame)
    (hv : s.m_is_visible = true) (hw : 2 ≤ f.width) (hh : 2 ≤ f.height)
    (hsw : 2 ≤ s.m_widget_size.width) (hsh : 2 ≤ s.m_widget_size.height)
    (hany : s.m_next_frame_time ≠ ANY) (ht : InPacingRange f.timestamp)
    (hd : INT64_MIN + 1000000 ≤ s.m_next_frame_time ∧ s.m_next_frame_time ≤ INT64_MAX)
    (hge : ¬ f.timestamp < s.m_next_frame_time - period s) :
    (readFrame ANY Scale s f).2 = true ∧
    (readFrame ANY Scale s f).1.m_next_frame_time
      = max (s.m_next_frame_time + period s) f.timestamp ∧
    (readFrame ANY Scale s f).1.m_frame_rate = s.m_frame_rate ∧
    (readFrame ANY Scale s f).1.m_widget_size = s.m_widget_size ∧
    (readFrame ANY Scale s f).1.m_is_visible = s.m_is_visible := by
  obtain ⟨a, b, c⟩ := ReadVideoFrame_due ANY Scale s f.width f.height f.data f.stride
    f.format f.timestamp hv hw hh hsw hsh hany (by rw [wrap64_sub_period s hd]; exact hge)
  rw [(wrap64_add_period s f.timestamp ht hd hge).1] at b
  exact ⟨a, b, c⟩

/-- One call of `ReadVideoFrame` in the pacing range, in exact arithmetic: the
frame is discarded and nothing changes, or it is accepted, the deadline follows
one of the two pacing rules without wrapping, and the new deadline is again an
`int64_t` at least 1000000 above `INT64_MIN`. -/
theorem readFrame_cases_exact (ANY : Int) (Scale : FastScaler) (s : SharedData) (f : Frame)
    (ht : InPacingRange f.timestamp)
    (hd : s.m_next_frame_time ≠ ANY →
      INT64_MIN + 1000000 ≤ s.m_next_frame_time ∧ s.m_next_frame_time ≤ INT64_MAX) :
    readFrame ANY Scale s f = (s, false) ∨
    ((readFrame ANY Scale s f).2 = true ∧
      (readFrame ANY Scale s f).1.m_frame_rate = s.m_frame_rate ∧
      (readFrame ANY Scale s f).1.m_widget_size = s.m_widget_size ∧
      (readFrame ANY Scale s f).1.m_is_visible = s.m_is_visible ∧
      ((s.m_next_frame_time = ANY ∧
        (readFrame ANY Scale s f).1.m_next_frame_time = f.timestamp + period s) ∨
       (s.m_next_frame_time ≠ ANY ∧ ¬ f.timestamp < s.m_next_frame_time - period s ∧
        (readFrame ANY Scale s f).1.m_next_frame_time
          = max (s.m_next_frame_time + period s) f.timestamp)) ∧
      (INT64_MIN + 1000000 ≤ (readFrame ANY Scale s f).1.m_next_frame_time ∧
        (readFrame ANY Scale s f).1.m_next_frame_time ≤ INT64_MAX)) := by
  rcases readFrame_cases ANY Scale s f with hr | ⟨ha, hrate, hwid, hvis, hcase⟩
  · exact Or.inl hr
  · refine Or.inr ⟨ha, hrate, hwid, hvis, ?_⟩
    rcases hcase with ⟨hany, hnext⟩ | ⟨hany, hge, hnext⟩
    · obtain ⟨e, lo, hi⟩ := wrap64_timestamp_add s f.timestamp ht
      rw [e] at hnext
      rw [hnext]
      exact ⟨Or.inl ⟨hany, rfl⟩, lo, hi⟩
    · have hdr := hd hany
      rw [wrap64_sub_period s hdr] at hge
      obtain ⟨e, hi⟩ := wrap64_add_period s f.timestamp ht hdr hge
      rw [e] at hnext
      rw [hnext]
      refine ⟨Or.inr ⟨hany, hge, rfl⟩, le_trans ht.1 (le_max_right _ _), max_le hi ?_⟩
      have : INT64_MAX - 2000000 ≤ INT64_MAX := by unfold INT64_MAX; norm_num
      exact le_trans ht.2 this

/-- With the surface visible, all dimensions at least 2 and timestamps in the
pacing range, the accepted timestamps are the ones that pass the timestamp
check in exact arithmetic. -/
theorem readFrames_eq_pacedTimestamps (ANY : Int) (Scale : FastScaler) (fs : List Frame) :
    ∀ s : SharedData, s.m_is_visible = true → 2 ≤ s.m_widget_size.width →
      2 ≤ s.m_widget_size.height →
      (s.m_next_frame_time ≠ ANY →
        INT64_MIN + 1000000 ≤ s.m_next_frame_time ∧ s.m_next_frame_time ≤ INT64_MAX) →
      (∀ f ∈ fs, 2 ≤ f.width ∧ 2 ≤ f.height ∧ InPacingRange f.timestamp) →
      (readFrames ANY Scale s fs).2
        = pacedTimestamps ANY (period s) s.m_next_frame_time (fs.map Frame.timestamp) := by
  induction fs with
  | nil => intro s _ _ _ _ _; rfl
  | cons f fs ih =>
    intro s hv hsw hsh hd hfs
    obtain ⟨hfw, hfh, hft⟩ := hfs f (List.mem_cons_self _ _)
    have hrest : ∀ g ∈ fs, 2 ≤ g.width ∧ 2 ≤ g.height ∧ InPacingRange g.timestamp :=
      fun g hg => hfs g (List.mem_cons_of_mem _ hg)
    simp only [readFrames, List.map_cons, pacedTimestamps]
    rcases readFrame_cases_exact ANY Scale s f hft hd with hr | ⟨a, c, d, e, hcase, hrange⟩
    · by_cases hany : s.m_next_frame_time = ANY
      · have := (readFrame_any_exact ANY Scale s f hv hfw hfh hsw hsh hany hft).1
        rw [hr] at this
        cases this
      · by_cases hlt : f.timestamp < s.m_next_frame_time - period s
        · rw [hr, if_neg hany, if_pos hlt]
          simpa using ih s hv hsw hsh hd hrest
        · have := (readFrame_due_exact ANY Scale s f hv hfw hfh hsw hsh hany hft (hd hany)
            hlt).1
          rw [hr] at this
          cases this
    · have ih1 := ih (readFrame ANY Scale s f).1 (e.trans hv) (by rw [d]; exact hsw)
        (by rw [d]; exact hsh) (fun _ => hrange) hrest
      rw [period_congr s _ c] at ih1
      rcases hcase with ⟨hany, b⟩ | ⟨hany, hge, b⟩
      · rw [b] at ih1
        rw [a, if_pos rfl, if_pos hany, ih1]
      · rw [b] at ih1
        rw [a, if_pos rfl, if_neg hany, if_neg hge, ih1]

/-- Claim C6 fails as stated: at frame rate 10, from the unconstrained state,
the frames at 0, 50000, 100000, 140000, 260000 are accepted at
0, 50000, 100000 and 260000. The frame at 50000 follows the accepted frame at 0
by less than the period 100000 and is accepted all the same. -/
theorem close_frames_counterexample :
    (readFrames sentinel scaleNothing (shown 10 sentinel)
      [frameAt 0, frameAt 50000, frameAt 100000, frameAt 140000, frameAt 260000]).2
      = [0, 50000, 100000, 260000] ∧
    (readFrame sentinel scaleNothing (shown 10 sentinel) (frameAt 0)).2 = true ∧
    (readFrame sentinel scaleNothing
      (readFrame sentinel scaleNothing (shown 10 sentinel) (frameAt 0)).1 (frameAt 50000)).2
      = true := by
  decide

/-- Claim C6, amended: for every frame rate and timestamps in the range where
the `int64_t` arithmetic cannot overflow (`INT64_MIN + 1000000` to
`INT64_MAX - 2000000`), if `ReadVideoFrame` accepts a frame with timestamp `t`
(above the sentinel value), a frame fed next with a timestamp `t2 > t` is
dropped exactly when the deadline `d` that was in force before `t` was accepted
is not the sentinel and `t2 < d`; closeness to `t` alone causes no drop. For
frame rate 10 and frames fed at 0, 50000, 100000, 140000, 260000 from the
unconstrained state (sentinel below 0) the accepted timestamps are exactly
0, 50000, 100000, 260000. -/
theorem next_frame_dropped_iff (ANY : Int) (Scale : FastScaler) (s : SharedData) (f g : Frame)
    (hv : s.m_is_visible = true)
    (hsw : 2 ≤ s.m_widget_size.width) (hsh : 2 ≤ s.m_widget_size.height)
    (hg : 2 ≤ g.width ∧ 2 ≤ g.height)
    (htf : InPacingRange f.timestamp) (htg : InPacingRange g.timestamp)
    (hd : s.m_next_frame_time ≠ ANY →
      INT64_MIN + 1000000 ≤ s.m_next_frame_time ∧ s.m_next_frame_time ≤ INT64_MAX)
    (hANY : ANY < f.timestamp) (hlt : f.timestamp < g.timestamp)
    (hacc : (readFrame ANY Scale s f).2 = true) :
    ((readFrame ANY Scale (readFrame ANY Scale s f).1 g).2 = false ↔
      (s.m_next_frame_time ≠ ANY ∧ g.timestamp < s.m_next_frame_time)) ∧
    (ANY < 0 →
      (readFrames ANY Scale (shown 10 ANY)
        [frameAt 0, frameAt 50000, frameAt 100000, frameAt 140000, frameAt 260000]).2
        = [0, 50000, 100000, 260000]) := by
  have hp := period_nonneg s
  constructor
  · rcases readFrame_cases_exact ANY Scale s f htf hd with hr | ⟨_, c, d, e, hcase, hrange⟩
    · rw [hr] at hacc
      cases hacc
    · have hm1 := le_max_left (s.m_next_frame_time + period s) f.timestamp
      have hm2 := le_max_right (s.m_next_frame_time + period s) f.timestamp
      rcases hcase with ⟨hany, b⟩ | ⟨hany, hlt0, b⟩
      · have hne : (readFrame ANY Scale s f).1.m_next_frame_time ≠ ANY := by
          rw [b]; intro h; linarith
        have hge : ¬ g.timestamp < (readFrame ANY Scale s f).1.m_next_frame_time
            - period (readFrame ANY Scale s f).1 := by
          rw [period_congr s _ c, b]; linarith
        have := readFrame_due_exact ANY Scale (readFrame ANY Scale s f).1 g (e.trans hv)
          hg.1 hg.2 (by rw [d]; exact hsw) (by rw [d]; exact hsh) hne htg hrange hge
        simp [this.1, hany]
      · have hne : (readFrame ANY Scale s f).1.m_next_frame_time ≠ ANY := by
          rw [b]; intro h; linarith
        by_cases hdl : g.timestamp < s.m_next_frame_time
        · have hearly : g.timestamp < (readFrame ANY Scale s f).1.m_next_frame_time
              - period (readFrame ANY Scale s f).1 := by
            rw [period_congr s _ c, b]; linarith
          rw [readFrame_early_exact ANY Scale _ g hne hrange hearly]
          simp [hany, hdl]
        · have hge : ¬ g.timestamp < (readFrame ANY Scale s f).1.m_next_frame_time
              - period (readFrame ANY Scale s f).1 := by
            rw [period_congr s _ c, b, not_lt, sub_le_iff_le_add]
            exact max_le (by linarith) (by linarith)
          have := readFrame_due_exact ANY Scale (readFrame ANY Scale s f).1 g (e.trans hv)
            hg.1 hg.2 (by rw [d]; exact hsw) (by rw [d]; exact hsh) hne htg hrange hge
          simp [this.1, hdl]
  · intro h
    rw [readFrames_eq_pacedTimestamps ANY Scale _ (shown 10 ANY) rfl
      (by simp [shown]) (by simp [shown]) (fun hne => absurd rfl hne)
      (by simp [frameAt, InPacingRange, INT64_MIN, INT64_MAX])]
    have e1 : (100000 : Int) ≠ ANY := by omega
    have e2 : (200000 : Int) ≠ ANY := by omega
    have e3 : (300000 : Int) ≠ ANY := by omega
    have hper : period (shown 10 ANY) = 100000 := by
      show ((1000000 / 10 : Nat) : Int) = 100000
      rfl
    have hdl : (shown 10 ANY).m_next_frame_time = ANY := rfl
    rw [hper, hdl]
    simp [pacedTimestamps, frameAt, e1, e2, e3]

theorem next_frame_dropped_iff_witness :
    ((readFrame sentinel scaleNothing
        (readFrame sentinel scaleNothing (shown 10 250000) (frameAt 150000)).1
        (frameAt 200000)).2 = false ↔
      ((shown 10 250000).m_next_frame_time ≠ sentinel ∧
        (frameAt 200000).timestamp < (shown 10 250000).m_next_frame_time)) ∧
    (sentinel < 0 →
      (readFrames sentinel scaleNothing (shown 10 sentinel)
        [frameAt 0, frameAt 50000, frameAt 100000, frameAt 140000, frameAt 260000]).2
        = [0, 50000, 100000, 260000]) :=
  next_frame_dropped_iff sentinel scaleNothing (shown 10 250000) (frameAt 150000)
    (frameAt 200000) rfl (by decide) (by decide) (by decide) (by decide)
    (by decide) (fun _ => by decide) (by decide) (by decide) (by decide)

end VideoPreviewer

/-! ## Pacing: the rate bound -/

namespace VideoPreviewer

theorem countInWindow_cons (w t : Int) (ts : List Int) :
    countInWindow w (t :: ts)
      = (if w ≤ t ∧ t < w + 1000000 then 1 else 0) + countInWindow w ts := by
  unfold countInWindow
  by_cases h : w ≤ t ∧ t < w + 1000000
  · simp [List.filter_cons, h, Nat.add_comm]
  · simp [List.filter_cons, h]

/-- The invariant behind the window bound: once `c ≥ 1` frames of the window
`[w, w + 1000000)` have been accepted the deadline is not the sentinel and is at
least `w + (c - 1) * period`. -/
theorem window_invariant (ANY : Int) (Scale : FastScaler) (w : Int) (fs : List Frame) :
    ∀ (s : SharedData) (c : Nat),
      (∀ f ∈ fs, ANY < f.timestamp ∧ InPacingRange f.timestamp) →
      (s.m_next_frame_time ≠ ANY →
        INT64_MIN + 1000000 ≤ s.m_next_frame_time ∧ s.m_next_frame_time ≤ INT64_MAX) →
      (1 ≤ c → s.m_next_frame_time ≠ ANY ∧
        w + ((c : Int) - 1) * period s ≤ s.m_next_frame_time) →
      ((c : Int) - 3) * period s < 1000000 →
      (((c + countInWindow w (readFrames ANY Scale s fs).2 : Nat) : Int) - 3) * period s
        < 1000000 := by
  induction fs with
  | nil =>
    intro s c _ _ _ hb
    simpa [readFrames, countInWindow] using hb
  | cons f fs ih =>
    intro s c hts hrng hinv hb
    obtain ⟨hf, hfr⟩ := hts f (List.mem_cons_self _ _)
    have hrest : ∀ g ∈ fs, ANY < g.timestamp ∧ InPacingRange g.timestamp :=
      fun g hg => hts g (List.mem_cons_of_mem _ hg)
    have hp := period_nonneg s
    simp only [readFrames]
    rcases readFrame_cases_exact ANY Scale s f hfr hrng with
      hr | ⟨ha, hrate, _, _, hd, hrange⟩
    · rw [hr]
      simpa using ih s c hrest hrng hinv hb
    · have hper := period_congr s _ hrate
      rw [ha, if_pos rfl, countInWindow_cons]
      have hm1 := le_max_left (s.m_next_frame_time + period s) f.timestamp
      have hm2 := le_max_right (s.m_next_frame_time + period s) f.timestamp
      by_cases hin : w ≤ f.timestamp ∧ f.timestamp < w + 1000000
      · rw [if_pos hin]
        have key := ih (readFrame ANY Scale s f).1 (c + 1) hrest (fun _ => hrange)
        rw [hper] at key
        have hcount : c + (1 + countInWindow w (readFrames ANY Scale (readFrame ANY Scale s f).1 fs).2)
            = c + 1 + countInWindow w (readFrames ANY Scale (readFrame ANY Scale s f).1 fs).2 := by
          omega
        rw [hcount]
        apply key
        · intro _
          push_cast
          rcases hd with ⟨hany, hnext⟩ | ⟨hany, hge, hnext⟩
          · have hc : c = 0 := by
              by_contra hc
              exact (hinv (by omega)).1 hany
            subst hc
            rw [hnext]
            refine ⟨fun h => by linarith, ?_⟩
            simp only [Nat.cast_zero]
            linarith
          · rw [hnext]
            refine ⟨fun h => by linarith, ?_⟩
            rcases Nat.eq_zero_or_pos c with hc | hc
            · subst hc
              simp only [Nat.cast_zero]
              linarith
            · have := (hinv hc).2
              linarith
        · push_cast
          rcases Nat.eq_zero_or_pos c with hc | hc
          · subst hc
            simp only [Nat.cast_zero]
            linarith
          · rcases hd with ⟨hany, _⟩ | ⟨_, hge, _⟩
            · exact absurd hany (hinv hc).1
            · have := (hinv hc).2
              nlinarith
      · rw [if_neg hin]
        have key := ih (readFrame ANY Scale s f).1 c hrest (fun _ => hrange)
        rw [hper] at key
        simp only [Nat.zero_add]
        apply key _ hb
        intro hc
        rcases hd with ⟨hany, _⟩ | ⟨_, _, hnext⟩
        · exact absurd hany (hinv hc).1
        · rw [hnext]
          have := (hinv hc).2
          exact ⟨fun h => by linarith, by linarith⟩

/-- Claim C7 fails as stated: at frame rate 10, from the unconstrained state,
of the strictly increasing timestamps below all are accepted, and twelve of
them lie in the window `[1000000, 2000000)`. -/
theorem accepted_in_window_counterexample :
    (readFrames sentinel scaleNothing (shown 10 sentinel)
      (List.map frameAt [0, 1000000, 1000001, 1000002, 1100000, 1200000, 1300000, 1400000,
        1500000, 1600000, 1700000, 1800000, 1900000])).2
      = [0, 1000000, 1000001, 1000002, 1100000, 1200000, 1300000, 1400000,
        1500000, 1600000, 1700000, 1800000, 1900000] ∧
    countInWindow 1000000
      (readFrames sentinel scaleNothing (shown 10 sentinel)
        (List.map frameAt [0, 1000000, 1000001, 1000002, 1100000, 1200000, 1300000, 1400000,
          1500000, 1600000, 1700000, 1800000, 1900000])).2 = 12 ∧
    (shown 10 sentinel).m_frame_rate = 10 := by
  decide

/-- Claim C7, amended: pacing bounds the displayed rate to the frame rate plus
two. For every frame rate `R ≥ 1`, starting from the unconstrained deadline,
for every sequence of frames (strictly increasing or not) whose timestamps are
above the sentinel value and in the range where the `int64_t` arithmetic cannot
overflow (`INT64_MIN + 1000000` to `INT64_MAX - 2000000`), the number `n` of
accepted frames whose timestamps lie in a window `[w, w + 1000000)` satisfies
`(n - 3) * (1000000 / R) < 1000000`; when `R` divides 1000000 this is
`n ≤ R + 2`. -/
theorem accepted_in_window_bound (ANY : Int) (Scale : FastScaler) (s : SharedData)
    (fs : List Frame) (w : Int) (hR : 1 ≤ s.m_frame_rate)
    (hany : s.m_next_frame_time = ANY)
    (hts : ∀ f ∈ fs, ANY < f.timestamp ∧ InPacingRange f.timestamp) :
    ((countInWindow w (readFrames ANY Scale s fs).2 : Int) - 3)
        * ((1000000 / s.m_frame_rate : Nat) : Int) < 1000000 ∧
    (s.m_frame_rate ∣ 1000000 →
      countInWindow w (readFrames ANY Scale s fs).2 ≤ s.m_frame_rate + 2) := by
  have hp := period_nonneg s
  have main := window_invariant ANY Scale w fs s 0 hts (fun hne => absurd hany hne)
    (fun h => absurd h (by decide)) (by simp only [Nat.cast_zero]; linarith)
  rw [Nat.zero_add] at main
  have main2 : ((countInWindow w (readFrames ANY Scale s fs).2 : Int) - 3)
      * ((1000000 / s.m_frame_rate : Nat) : Int) < 1000000 := main
  refine ⟨main2, fun hdvd => ?_⟩
  obtain ⟨k, hk⟩ := hdvd
  have hdiv : 1000000 / s.m_frame_rate = k := by
    rw [hk]; exact Nat.mul_div_cancel_left k (by omega)
  rw [hdiv] at main2
  have hkR : ((s.m_frame_rate : Int)) * (k : Int) = 1000000 := by exact_mod_cast hk.symm
  have hkpos : (0 : Int) < k := by
    rcases Nat.eq_zero_or_pos k with h0 | h0
    · subst h0; simp at hk
    · exact_mod_cast h0
  have : ((countInWindow w (readFrames ANY Scale s fs).2 : Int) - 3) < s.m_frame_rate := by
    by_contra hcon
    push_neg at hcon
    nlinarith
  omega

theorem accepted_in_window_bound_witness :
    ((countInWindow 1000000 (readFrames sentinel scaleNothing (shown 10 sentinel)
        (List.map frameAt [0, 1000000, 1000001, 1000002, 1100000])).2 : Int) - 3)
        * ((1000000 / (shown 10 sentinel).m_frame_rate : Nat) : Int) < 1000000 ∧
    ((shown 10 sentinel).m_frame_rate ∣ 1000000 →
      countInWindow 1000000 (readFrames sentinel scaleNothing (shown 10 sentinel)
        (List.map frameAt [0, 1000000, 1000001, 1000002, 1100000])).2
        ≤ (shown 10 sentinel).m_frame_rate + 2) :=
  accepted_in_window_bound sentinel scaleNothing (shown 10 sentinel)
    (List.map frameAt [0, 1000000, 1000001, 1000002, 1100000]) 1000000 (by decide) rfl
    (by decide)

end VideoPreviewer

/-! ## Invariants over sequences of entry points -/

namespace VideoPreviewer

theorem readFrame_frame_rate (ANY : Int) (Scale : FastScaler) (s : SharedData) (f : Frame) :
    (readFrame ANY Scale s f).1.m_frame_rate = s.m_frame_rate := by
  rcases readFrame_cases ANY Scale s f with hr | ⟨_, hrate, _⟩
  · rw [hr]
  · exact hrate

theorem readFrame_deadline_le (ANY : Int) (Scale : FastScaler) (s : SharedData) (f : Frame)
    (h : s.m_next_frame_time ≠ ANY) (hlo : INT64_MIN ≤ s.m_next_frame_time)
    (hhi : s.m_next_frame_time + period s ≤ INT64_MAX) :
    s.m_next_frame_time ≤ (readFrame ANY Scale s f).1.m_next_frame_time := by
  have hp := period_nonneg s
  rcases readFrame_cases ANY Scale s f with hr | ⟨_, _, _, _, hd⟩
  · rw [hr]
  · rcases hd with ⟨hany, _⟩ | ⟨_, _, hnext⟩
    · exact absurd hany h
    · rw [hnext, wrap64_eq _ (by linarith) hhi]
      exact le_trans (by linarith) (le_max_left _ _)

theorem step_deadline_le (ANY : Int) (Scale : FastScaler) (s : SharedData) (op : Op)
    (h : s.m_next_frame_time ≠ ANY) (hlo : INT64_MIN ≤ s.m_next_frame_time)
    (hhi : s.m_next_frame_time + period s ≤ INT64_MAX) :
    s.m_next_frame_time ≤ (step ANY Scale s op).m_next_frame_time := by
  cases op with
  | ReadVideoFrame f => exact readFrame_deadline_le ANY Scale s f h hlo hhi
  | Reset => exact le_refl _
  | SetFrameRate r => exact le_refl _
  | GetNextVideoTimestamp => exact le_refl _
  | showEvent => exact le_refl _
  | hideEvent => exact le_refl _
  | resizeEvent W H => exact le_refl _
  | paintEvent W H => exact le_refl _

/-- One entry point, with its frame (if it is a `ReadVideoFrame`) in the pacing
range, from a deadline that is an `int64_t` at least 1000000 above `INT64_MIN`
and not the sentinel: the deadline does not decrease and stays an `int64_t`. -/
theorem step_deadline_in_range (ANY : Int) (Scale : FastScaler) (s : SharedData) (op : Op)
    (h : s.m_next_frame_time ≠ ANY)
    (hd : INT64_MIN + 1000000 ≤ s.m_next_frame_time ∧ s.m_next_frame_time ≤ INT64_MAX)
    (hop : ∀ f, op = Op.ReadVideoFrame f → InPacingRange f.timestamp) :
    s.m_next_frame_time ≤ (step ANY Scale s op).m_next_frame_time ∧
    (step ANY Scale s op).m_next_frame_time ≤ INT64_MAX := by
  cases op with
  | ReadVideoFrame f =>
    have hp := period_nonneg s
    show s.m_next_frame_time ≤ (readFrame ANY Scale s f).1.m_next_frame_time ∧
      (readFrame ANY Scale s f).1.m_next_frame_time ≤ INT64_MAX
    rcases readFrame_cases_exact ANY Scale s f (hop f rfl) (fun _ => hd) with
      hr | ⟨_, _, _, _, hcase, hrange⟩
    · rw [hr]
      exact ⟨le_refl _, hd.2⟩
    · refine ⟨?_, hrange.2⟩
      rcases hcase with ⟨hany, _⟩ | ⟨_, _, hnext⟩
      · exact absurd hany h
      · rw [hnext]
        exact le_trans (by linarith) (le_max_left _ _)
  | Reset => exact ⟨le_refl _, hd.2⟩
  | SetFrameRate r => exact ⟨le_refl _, hd.2⟩
  | GetNextVideoTimestamp => exact ⟨le_refl _, hd.2⟩
  | showEvent => exact ⟨le_refl _, hd.2⟩
  | hideEvent => exact ⟨le_refl _, hd.2⟩
  | resizeEvent W H => exact ⟨le_refl _, hd.2⟩
  | paintEvent W H => exact ⟨le_refl _, hd.2⟩

theorem run_deadline_le (ANY : Int) (Scale : FastScaler) (ops : List Op) :
    ∀ s : SharedData, ANY < s.m_next_frame_time →
      INT64_MIN + 1000000 ≤ s.m_next_frame_time → s.m_next_frame_time ≤ INT64_MAX →
      (∀ f, Op.ReadVideoFrame f ∈ ops → InPacingRange f.timestamp) →
      s.m_next_frame_time ≤ (run ANY Scale s ops).m_next_frame_time := by
  induction ops with
  | nil => intro s _ _ _ _; exact le_refl _
  | cons op ops ih =>
    intro s h hlo hhi hops
    obtain ⟨h1, h2⟩ := step_deadline_in_range ANY Scale s op (ne_of_gt h) ⟨hlo, hhi⟩
      (fun f hf => hops f (by rw [hf]; exact List.mem_cons_self _ _))
    have h3 := ih (step ANY Scale s op) (lt_of_lt_of_le h h1) (le_trans hlo h1) h2
      (fun f hf => hops f (List.mem_cons_of_mem _ hf))
    exact le_trans h1 h3

theorem step_frame_rate_pos (ANY : Int) (Scale : FastScaler) (s : SharedData) (op : Op)
    (h : 1 ≤ s.m_frame_rate) : 1 ≤ (step ANY Scale s op).m_frame_rate := by
  cases op with
  | ReadVideoFrame f =>
    show 1 ≤ (readFrame ANY Scale s f).1.m_frame_rate
    rw [readFrame_frame_rate]; exact h
  | Reset => exact h
  | SetFrameRate r => exact le_max_left 1 r
  | GetNextVideoTimestamp => exact h
  | showEvent => exact h
  | hideEvent => exact h
  | resizeEvent W H => exact h
  | paintEvent W H => exact h

theorem run_frame_rate_pos (ANY : Int) (Scale : FastScaler) (ops : List Op) :
    ∀ s : SharedData, 1 ≤ s.m_frame_rate → 1 ≤ (run ANY Scale s ops).m_frame_rate := by
  induction ops with
  | nil => intro s h; exact h
  | cons op ops ih =>
    intro s h
    exact ih (step ANY Scale s op) (step_frame_rate_pos ANY Scale s op h)

/-- Claim C8 fails as stated: the sum `deadline + period` of line 97 is an
`int64_t` operation. At frame rate 10, with the deadline 9223372036854775797, a
frame with timestamp 9223372036854725807 is accepted, the sum wraps to a
negative value and the stored deadline is the timestamp, below the deadline
before. -/
theorem deadline_regresses_counterexample :
    (9223372036854775797 : Int) ≠ sentinel ∧
    (readFrame sentinel scaleNothing (shown 10 9223372036854775797)
      (frameAt 9223372036854725807)).2 = true ∧
    (readFrame sentinel scaleNothing (shown 10 9223372036854775797)
      (frameAt 9223372036854725807)).1.m_next_frame_time = 9223372036854725807 ∧
    (9223372036854725807 : Int) < 9223372036854775797 := by
  decide

/-- Claim C8, amended: the pacing deadline never regresses as long as the sum
`deadline + period` does not overflow. From a state whose deadline is an
`int64_t` other than the sentinel with `deadline + period ≤ INT64_MAX`, every
entry point (`ReadVideoFrame`, `SetFrameRate`, show, hide, resize, and the
others) leaves the deadline greater than or equal to its previous value; an
accepted frame in particular, and a discarded frame leaves the whole shared
data, the deadline included, unchanged. Over a whole sequence of entry points
whose frames have timestamps in the range `INT64_MIN + 1000000` to
`INT64_MAX - 2000000`, the deadline of a state above the sentinel value and at
least `INT64_MIN + 1000000` never decreases. -/
theorem deadline_never_regresses (ANY : Int) (Scale : FastScaler) (s : SharedData)
    (h : s.m_next_frame_time ≠ ANY) (hlo : INT64_MIN ≤ s.m_next_frame_time)
    (hhi : s.m_next_frame_time + ((1000000 / s.m_frame_rate : Nat) : Int) ≤ INT64_MAX) :
    (∀ op : Op, s.m_next_frame_time ≤ (step ANY Scale s op).m_next_frame_time) ∧
    (∀ f : Frame, (readFrame ANY Scale s f).2 = true →
      s.m_next_frame_time ≤ (readFrame ANY Scale s f).1.m_next_frame_time) ∧
    (∀ f : Frame, (readFrame ANY Scale s f).2 = false →
      (readFrame ANY Scale s f).1.m_next_frame_time = s.m_next_frame_time) ∧
    (ANY < s.m_next_frame_time → INT64_MIN + 1000000 ≤ s.m_next_frame_time →
      ∀ ops : List Op, (∀ f, Op.ReadVideoFrame f ∈ ops → InPacingRange f.timestamp) →
        s.m_next_frame_time ≤ (run ANY Scale s ops).m_next_frame_time) := by
  have hhi1 : s.m_next_frame_time + period s ≤ INT64_MAX := hhi
  have hp := period_nonneg s
  refine ⟨fun op => step_deadline_le ANY Scale s op h hlo hhi1,
    fun f _ => readFrame_deadline_le ANY Scale s f h hlo hhi1, fun f hrej => ?_,
    fun hgt hlo1 ops hops => run_deadline_le ANY Scale ops s hgt hlo1 (by linarith) hops⟩
  rcases readFrame_cases ANY Scale s f with hr | ⟨ha, _⟩
  · rw [hr]
  · rw [ha] at hrej
    cases hrej

theorem deadline_never_regresses_witness :
    (∀ op : Op, (shown 10 250000).m_next_frame_time
      ≤ (step sentinel scaleNothing (shown 10 250000) op).m_next_frame_time) ∧
    (∀ f : Frame, (readFrame sentinel scaleNothing (shown 10 250000) f).2 = true →
      (shown 10 250000).m_next_frame_time
        ≤ (readFrame sentinel scaleNothing (shown 10 250000) f).1.m_next_frame_time) ∧
    (∀ f : Frame, (readFrame sentinel scaleNothing (shown 10 250000) f).2 = false →
      (readFrame sentinel scaleNothing (shown 10 250000) f).1.m_next_frame_time
        = (shown 10 250000).m_next_frame_time) ∧
    (sentinel < (shown 10 250000).m_next_frame_time →
      INT64_MIN + 1000000 ≤ (shown 10 250000).m_next_frame_time →
      ∀ ops : List Op, (∀ f, Op.ReadVideoFrame f ∈ ops → InPacingRange f.timestamp) →
        (shown 10 250000).m_next_frame_time
          ≤ (run sentinel scaleNothing (shown 10 250000) ops).m_next_frame_time) :=
  deadline_never_regresses sentinel scaleNothing (shown 10 250000) (by decide) (by decide)
    (by decide)

/-- Claim C10: `m_frame_rate ≥ 1` in every reachable state. It is 10 at
construction, `SetFrameRate(rate)` stores `max 1 rate` for every unsigned
`rate`, 0 included, and no other entry point writes it; so after every
sequence of entry points the divisor of `1000000 / m_frame_rate` is not zero. -/
theorem frame_rate_always_positive (ANY : Int) (Scale : FastScaler) :
    (init ANY).m_frame_rate = 10 ∧
    (∀ (s : SharedData) (rate : Nat), (SetFrameRate s rate).m_frame_rate = max 1 rate) ∧
    (∀ s : SharedData, (SetFrameRate s 0).m_frame_rate = 1) ∧
    (∀ (s : SharedData) (op : Op), (step ANY Scale s op).m_frame_rate =
      match op with
      | Op.SetFrameRate rate => max 1 rate
      | _ => s.m_frame_rate) ∧
    (∀ ops : List Op, 1 ≤ (run ANY Scale (init ANY) ops).m_frame_rate) ∧
    (∀ ops : List Op, (run ANY Scale (init ANY) ops).m_frame_rate ≠ 0) := by
  refine ⟨rfl, fun _ _ => rfl, fun _ => rfl, fun s op => ?_, fun ops => ?_, fun ops => ?_⟩
  · cases op with
    | ReadVideoFrame f => exact readFrame_frame_rate ANY Scale s f
    | Reset => rfl
    | SetFrameRate r => rfl
    | GetNextVideoTimestamp => rfl
    | showEvent => rfl
    | hideEvent => rfl
    | resizeEvent W H => rfl
    | paintEvent W H => rfl
  · exact run_frame_rate_pos ANY Scale ops (init ANY) (by show 1 ≤ 10; omega)
  · have := run_frame_rate_pos ANY Scale ops (init ANY) (by show 1 ≤ 10; omega)
    omega

/-! ## Spacing of accepted frames -/

/-- Claim C17 fails as stated: the sum `timestamp + period` of line 93 is an
`int64_t` operation. From the sentinel, at frame rate 10, the frame with
timestamp `INT64_MAX` is accepted and the stored deadline is the wrapped sum
`-9223372036854675809`, below the timestamp. -/
theorem deadline_lag_counterexample :
    (ReadVideoFrame sentinel scaleNothing (shown 10 sentinel) 2 2 [] 8 0
      9223372036854775807).2 = true ∧
    (ReadVideoFrame sentinel scaleNothing (shown 10 sentinel) 2 2 [] 8 0
      9223372036854775807).1.m_next_frame_time = -9223372036854675809 ∧
    ¬ ((9223372036854775807 : Int) ≤ -9223372036854675809) := by
  decide

/-- Claim C17, amended: bounded deadline lag, as long as the `int64_t`
arithmetic does not overflow. Right after `ReadVideoFrame` accepts a frame with
an `int64_t` timestamp `t`, with `p = 1000000 / m_frame_rate` taken at that
moment, `t + 2 * p ≤ INT64_MAX`, and a deadline before the call that is the
sentinel or an `int64_t` with `INT64_MIN ≤ deadline - p`, the stored deadline
satisfies `t ≤ deadline ≤ t + 2 * p`, and it is `t + p` when the frame was
accepted from the sentinel state. -/
theorem deadline_lag_bounded (ANY : Int) (Scale : FastScaler) (s : SharedData)
    (width height : Nat) (data : List Nat) (stride : Int) (format : PixelFormat)
    (timestamp : Int)
    (hacc : (ReadVideoFrame ANY Scale s width height data stride format timestamp).2 = true)
    (ht : INT64_MIN ≤ timestamp)
    (ht2 : timestamp + 2 * ((1000000 / s.m_frame_rate : Nat) : Int) ≤ INT64_MAX)
    (hd : s.m_next_frame_time ≠ ANY →
      INT64_MIN ≤ s.m_next_frame_time - ((1000000 / s.m_frame_rate : Nat) : Int) ∧
      s.m_next_frame_time ≤ INT64_MAX) :
    timestamp
      ≤ (ReadVideoFrame ANY Scale s width height data stride format timestamp).1.m_next_frame_time ∧
    (ReadVideoFrame ANY Scale s width height data stride format timestamp).1.m_next_frame_time
      ≤ timestamp + 2 * ((1000000 / s.m_frame_rate : Nat) : Int) ∧
    (s.m_next_frame_time = ANY →
      (ReadVideoFrame ANY Scale s width height data stride format timestamp).1.m_next_frame_time
        = timestamp + ((1000000 / s.m_frame_rate : Nat) : Int)) := by
  have hp : 0 ≤ period s := period_nonneg s
  have hper : period s = ((1000000 / s.m_frame_rate : Nat) : Int) := rfl
  rw [← hper] at ht2 hd ⊢
  rcases ReadVideoFrame_cases ANY Scale s width height data stride format timestamp with
    hr | ⟨_, _, _, _, hcase⟩
  · rw [hr] at hacc
    cases hacc
  · rcases hcase with ⟨_, hnext⟩ | ⟨hany, hge, hnext⟩
    · rw [wrap64_eq _ (by linarith) (by linarith)] at hnext
      rw [hnext]
      exact ⟨by linarith, by linarith, fun _ => rfl⟩
    · obtain ⟨d1, d2⟩ := hd hany
      rw [wrap64_eq _ d1 (by linarith)] at hge
      rw [wrap64_eq _ (by linarith) (by linarith)] at hnext
      rw [hnext]
      exact ⟨le_max_right _ _, max_le (by linarith) (by linarith), fun h => absurd h hany⟩

theorem deadline_lag_bounded_witness :
    (150000 : Int)
      ≤ (ReadVideoFrame sentinel scaleNothing (shown 10 250000) 2 2 [] 8 0
          150000).1.m_next_frame_time ∧
    (ReadVideoFrame sentinel scaleNothing (shown 10 250000) 2 2 [] 8 0
        150000).1.m_next_frame_time
      ≤ 150000 + 2 * ((1000000 / (shown 10 250000).m_frame_rate : Nat) : Int) ∧
    ((shown 10 250000).m_next_frame_time = sentinel →
      (ReadVideoFrame sentinel scaleNothing (shown 10 250000) 2 2 [] 8 0
          150000).1.m_next_frame_time
        = 150000 + ((1000000 / (shown 10 250000).m_frame_rate : Nat) : Int)) :=
  deadline_lag_bounded sentinel scaleNothing (shown 10 250000) 2 2 [] 8 0 150000 (by decide)
    (by decide) (by decide) (fun _ => by decide)

/-- From a deadline `d` above the sentinel value, with the timestamps in the
pacing range, the accepted timestamps are spaced: the one at index `i` is at
least `d - period + i * period`, and the final deadline is at least `d` plus one
period for every accepted frame. -/
theorem spacing_from_deadline (ANY : Int) (Scale : FastScaler) (fs : List Frame) :
    ∀ s : SharedData, ANY < s.m_next_frame_time →
      (INT64_MIN + 1000000 ≤ s.m_next_frame_time ∧ s.m_next_frame_time ≤ INT64_MAX) →
      (∀ f ∈ fs, InPacingRange f.timestamp) →
      s.m_next_frame_time + ((readFrames ANY Scale s fs).2.length : Int) * period s
        ≤ (readFrames ANY Scale s fs).1.m_next_frame_time ∧
      ∀ (i : Nat) (t : Int), (readFrames ANY Scale s fs).2[i]? = some t →
        s.m_next_frame_time - period s + (i : Int) * period s ≤ t := by
  induction fs with
  | nil =>
    intro s _ _ _
    simp [readFrames]
  | cons f fs ih =>
    intro s hs hrng hts
    have hft := hts f (List.mem_cons_self _ _)
    have hrest : ∀ g ∈ fs, InPacingRange g.timestamp :=
      fun g hg => hts g (List.mem_cons_of_mem _ hg)
    have hp := period_nonneg s
    simp only [readFrames]
    rcases readFrame_cases_exact ANY Scale s f hft (fun _ => hrng) with
      hr | ⟨ha, hrate, _, _, hd, hrange⟩
    · rw [hr]
      simpa using ih s hs hrng hrest
    · have hper := period_congr s _ hrate
      rcases hd with ⟨hany, _⟩ | ⟨_, hge, hnext⟩
      · exact absurd hany (ne_of_gt hs)
      · have hm1 := le_max_left (s.m_next_frame_time + period s) f.timestamp
        have hs1 : ANY < (readFrame ANY Scale s f).1.m_next_frame_time := by
          rw [hnext]; linarith
        obtain ⟨ih1, ih2⟩ := ih (readFrame ANY Scale s f).1 hs1 hrange hrest
        rw [hper, hnext] at ih1 ih2
        rw [ha, if_pos rfl]
        refine ⟨?_, fun i t hi => ?_⟩
        · simp only [List.length_cons]
          push_cast
          linarith
        · cases i with
          | zero =>
            simp only [List.getElem?_cons_zero, Option.some.injEq] at hi
            subst hi
            simp only [Nat.cast_zero]
            linarith
          | succ j =>
            simp only [List.getElem?_cons_succ] at hi
            have := ih2 j t hi
            push_cast
            linarith

/-- Claim C16 fails as stated: the sums of lines 93 and 97 are `int64_t`
operations. At frame rate 10, from the sentinel, the frames with timestamps
`INT64_MAX`, `INT64_MAX` and `INT64_MAX - 100000` are all accepted, because the
first deadline wraps; the third accepted timestamp is below `t1 + p`, and the
deadline after three accepted frames is below `t1 + 3 * p`. -/
theorem accepted_spacing_counterexample :
    (readFrames sentinel scaleNothing (shown 10 sentinel)
      [frameAt 9223372036854775807, frameAt 9223372036854775807,
        frameAt 9223372036854675807]).2
      = [9223372036854775807, 9223372036854775807, 9223372036854675807] ∧
    ¬ ((9223372036854775807 : Int) + (3 - 2) * 100000 ≤ 9223372036854675807) ∧
    (readFrames sentinel scaleNothing (shown 10 sentinel)
      [frameAt 9223372036854775807, frameAt 9223372036854775807,
        frameAt 9223372036854675807]).1.m_next_frame_time = 9223372036854675807 ∧
    ¬ ((9223372036854775807 : Int) + 3 * 100000 ≤ 9223372036854675807) := by
  decide

/-- Claim C16, amended: spacing bound of the pacing state machine, as long as
the `int64_t` arithmetic does not overflow. At a fixed frame rate with
`p = 1000000 / m_frame_rate`, starting from the sentinel deadline and feeding
any sequence of frames with no other call in between, the timestamps being
above the sentinel value and in the range `INT64_MIN + 1000000` to
`INT64_MAX - 2000000`: if `t1` is the timestamp of the first accepted frame,
the `n`-th accepted frame (`n ≥ 2`, at index `n - 1` of the accepted list) has
timestamp at least `t1 + (n - 2) * p`, and after `n` accepted frames the
deadline is at least `t1 + n * p`. -/
theorem accepted_spacing (ANY : Int) (Scale : FastScaler) (s : SharedData) (fs : List Frame)
    (t1 : Int) (rest : List Int)
    (hany : s.m_next_frame_time = ANY)
    (hts : ∀ f ∈ fs, ANY < f.timestamp ∧ InPacingRange f.timestamp)
    (hacc : (readFrames ANY Scale s fs).2 = t1 :: rest) :
    (∀ (n : Nat) (t : Int), 2 ≤ n → (t1 :: rest)[n - 1]? = some t →
      t1 + ((n : Int) - 2) * ((1000000 / s.m_frame_rate : Nat) : Int) ≤ t) ∧
    t1 + (((t1 :: rest).length : Nat) : Int) * ((1000000 / s.m_frame_rate : Nat) : Int)
      ≤ (readFrames ANY Scale s fs).1.m_next_frame_time := by
  induction fs with
  | nil => simp [readFrames] at hacc
  | cons f fs ih =>
    obtain ⟨hf, hfr⟩ := hts f (List.mem_cons_self _ _)
    have hrest : ∀ g ∈ fs, ANY < g.timestamp ∧ InPacingRange g.timestamp :=
      fun g hg => hts g (List.mem_cons_of_mem _ hg)
    have hp := period_nonneg s
    have hper : period s = ((1000000 / s.m_frame_rate : Nat) : Int) := rfl
    simp only [readFrames] at hacc ⊢
    rcases readFrame_cases_exact ANY Scale s f hfr (fun hne => absurd hany hne) with
      hr | ⟨ha, hrate, _, _, hd, hrange⟩
    · rw [hr] at hacc ⊢
      exact ih hrest (by simpa using hacc)
    · rcases hd with ⟨_, hnext⟩ | ⟨hne, _⟩
      · rw [ha, if_pos rfl] at hacc
        simp only [List.cons.injEq] at hacc
        obtain ⟨h1, h2⟩ := hacc
        subst h1
        have hs1 : ANY < (readFrame ANY Scale s f).1.m_next_frame_time := by
          rw [hnext]; linarith
        obtain ⟨sp1, sp2⟩ := spacing_from_deadline ANY Scale fs (readFrame ANY Scale s f).1
          hs1 hrange (fun g hg => (hrest g hg).2)
        rw [period_congr s _ hrate, hnext, h2] at sp1 sp2
        rw [← hper]
        refine ⟨fun n t hn hget => ?_, ?_⟩
        · obtain ⟨m, rfl⟩ : ∃ m, n = m + 2 := ⟨n - 2, by omega⟩
          have hidx : m + 2 - 1 = m + 1 := by omega
          rw [hidx, List.getElem?_cons_succ] at hget
          have := sp2 m t hget
          push_cast
          linarith
        · simp only [List.length_cons]
          push_cast
          linarith
      · exact absurd hany hne

theorem accepted_spacing_witness :
    (∀ (n : Nat) (t : Int), 2 ≤ n → ((0 : Int) :: [50000, 100000, 260000])[n - 1]? = some t →
      0 + ((n : Int) - 2) * ((1000000 / (shown 10 sentinel).m_frame_rate : Nat) : Int) ≤ t) ∧
    0 + ((((0 : Int) :: [50000, 100000, 260000]).length : Nat) : Int)
        * ((1000000 / (shown 10 sentinel).m_frame_rate : Nat) : Int)
      ≤ (readFrames sentinel scaleNothing (shown 10 sentinel)
          [frameAt 0, frameAt 50000, frameAt 100000, frameAt 140000,
            frameAt 260000]).1.m_next_frame_time :=
  accepted_spacing sentinel scaleNothing (shown 10 sentinel)
    [frameAt 0, frameAt 50000, frameAt 100000, frameAt 140000, frameAt 260000]
    0 [50000, 100000, 260000] rfl (by decide) (by decide)

end VideoPreviewer

/-! ## Frame effects and the fitted size -/

namespace VideoPreviewer

/-- Claim C14: `resizeEvent` writes no member other than `m_widget_size` and
`SetFrameRate` writes no member other than `m_frame_rate`; the image, the
source size, the visibility flag and the deadline are untouched. Each is
idempotent: `resizeEvent` twice with the same size gives the state of one call,
`SetFrameRate` twice with the same rate gives the state of one call, and
`SetFrameRate` with the rate already stored changes nothing, both right after a
`SetFrameRate` and in every state reached from construction. -/
theorem resizeEvent_SetFrameRate_frame (ANY : Int) (Scale : FastScaler) (s : SharedData)
    (W H : Int) (rate : Nat) :
    resizeEvent s W H = { s with m_widget_size := QSize.mk (W - 2) (H - 2) } ∧
    ((resizeEvent s W H).m_image = s.m_image ∧
      (resizeEvent s W H).m_source_size = s.m_source_size ∧
      (resizeEvent s W H).m_is_visible = s.m_is_visible ∧
      (resizeEvent s W H).m_frame_rate = s.m_frame_rate ∧
      (resizeEvent s W H).m_next_frame_time = s.m_next_frame_time) ∧
    SetFrameRate s rate = { s with m_frame_rate := max 1 rate } ∧
    ((SetFrameRate s rate).m_image = s.m_image ∧
      (SetFrameRate s rate).m_source_size = s.m_source_size ∧
      (SetFrameRate s rate).m_widget_size = s.m_widget_size ∧
      (SetFrameRate s rate).m_is_visible = s.m_is_visible ∧
      (SetFrameRate s rate).m_next_frame_time = s.m_next_frame_time) ∧
    resizeEvent (resizeEvent s W H) W H = resizeEvent s W H ∧
    SetFrameRate (SetFrameRate s rate) rate = SetFrameRate s rate ∧
    SetFrameRate (SetFrameRate s rate) (SetFrameRate s rate).m_frame_rate
      = SetFrameRate s rate ∧
    (∀ ops : List Op,
      SetFrameRate (run ANY Scale (init ANY) ops) (run ANY Scale (init ANY) ops).m_frame_rate
        = run ANY Scale (init ANY) ops) := by
  have hmax : max 1 (max 1 rate) = max 1 rate := by omega
  refine ⟨rfl, ⟨rfl, rfl, rfl, rfl, rfl⟩, rfl, ⟨rfl, rfl, rfl, rfl, rfl⟩, rfl, ?_, ?_, ?_⟩
  · simp only [SetFrameRate, hmax]
  · simp only [SetFrameRate, hmax]
  · intro ops
    have h := run_frame_rate_pos ANY Scale ops (init ANY) (by show 1 ≤ 10; omega)
    simp only [SetFrameRate, max_eq_right h]

/-- What the first locked block of `ReadVideoFrame` returns when it does not
discard the frame. -/
theorem locked_some (ANY : Int) (s s2 : SharedData) (width height : Nat) (timestamp : Int)
    (image_size : QSize)
    (h : ReadVideoFrame.locked ANY s width height timestamp = some (s2, image_size)) :
    image_size = CalculateScaledSize s2.m_source_size s2.m_widget_size ∧
    s2.m_source_size = QSize.mk (toInt32 width) (toInt32 height) ∧
    s2.m_widget_size = s.m_widget_size ∧
    s2.m_image = s.m_image := by
  unfold ReadVideoFrame.locked at h
  split_ifs at h with h1 h2 h3 h4
  all_goals
    simp only [Option.some.injEq, Prod.mk.injEq] at h
    obtain ⟨rfl, rfl⟩ := h
    exact ⟨rfl, rfl, rfl, rfl⟩

/-- The image produced for a fitted size that has pixels has that size, lines
of four bytes per pixel, and is not null; otherwise it is null. -/
theorem produce_size (Scale : FastScaler) (width height : Nat) (data : List Nat)
    (stride : Int) (format : PixelFormat) (image_size : QSize) :
    (0 < image_size.width ∧ 0 < image_size.height →
      (ReadVideoFrame.produce Scale width height data stride format image_size).size
        = image_size ∧
      (ReadVideoFrame.produce Scale width height data stride format image_size).bytesPerLine
        = 4 * image_size.width) ∧
    ((ReadVideoFrame.produce Scale width height data stride format image_size).isNull = false →
      (ReadVideoFrame.produce Scale width height data stride format image_size).size
        = image_size) := by
  unfold ReadVideoFrame.produce QImage.create
  by_cases h : image_size.width ≤ 0 ∨ image_size.height ≤ 0
  · rw [if_pos h]
    refine ⟨fun hp => ?_, fun hn => ?_⟩
    · omega
    · simp [QImage.isNull, QImage.null] at hn
  · rw [if_neg h]
    exact ⟨fun _ => ⟨rfl, rfl⟩, fun _ => rfl⟩

/-- Claim C15 fails on the code. A visible previewer with a `4 x 4` surface
accepts a `1000 x 2` frame; the fitted size is `4 x 0`, the stored image is
null, and the scaler was called with destination height 0. -/
theorem fitted_size_zero_height :
    2 ≤ (frameOf 1000 2 0).width ∧ 2 ≤ (frameOf 1000 2 0).height ∧
    2 ≤ (shown 10 sentinel).m_widget_size.width ∧
    2 ≤ (shown 10 sentinel).m_widget_size.height ∧
    (readFrame sentinel scaleNothing (shown 10 sentinel) (frameOf 1000 2 0)).2 = true ∧
    (ReadVideoFrame.locked sentinel (shown 10 sentinel) 1000 2 0).map Prod.snd
      = some (QSize.mk 4 0) ∧
    CalculateScaledSize (QSize.mk 1000 2) (QSize.mk 4 4) = QSize.mk 4 0 ∧
    (readFrame sentinel scaleNothing (shown 10 sentinel) (frameOf 1000 2 0)).1.m_image.isNull
      = true := by
  decide

end VideoPreviewer

/-! ## The alpha channel -/

namespace VideoPreviewer

end VideoPreviewer

/-! ## Consistency of the shared data between lock-held sections -/

namespace VideoPreviewer

/-- One lock-held section keeps this: a present image has a recorded source;
with no call in flight the recorded source is the stored `m_source_size`; with
a call in flight `m_source_size` is already that of the frame in flight. -/
theorem lockStep_invariant (ANY : Int) (Scale : FastScaler) (st : Observed) (a : LockStep)
    (h1 : st.shared.m_image.isNull = false → ∃ sz, st.imageSource = some sz)
    (h2 : st.pending = none → ∀ sz, st.imageSource = some sz → st.shared.m_source_size = sz)
    (h3 : ∀ p, st.pending = some p →
      st.shared.m_source_size = QSize.mk (toInt32 p.frame.width) (toInt32 p.frame.height)) :
    ((lockStep ANY Scale st a).shared.m_image.isNull = false →
      ∃ sz, (lockStep ANY Scale st a).imageSource = some sz) ∧
    ((lockStep ANY Scale st a).pending = none → ∀ sz,
      (lockStep ANY Scale st a).imageSource = some sz →
      (lockStep ANY Scale st a).shared.m_source_size = sz) ∧
    (∀ p, (lockStep ANY Scale st a).pending = some p →
      (lockStep ANY Scale st a).shared.m_source_size
        = QSize.mk (toInt32 p.frame.width) (toInt32 p.frame.height)) := by
  cases a with
  | readBegin f =>
    cases hp : st.pending with
    | some q =>
      have e : lockStep ANY Scale st (LockStep.readBegin f) = st := by
        simp only [lockStep, hp]
      rw [e]
      exact ⟨h1, h2, h3⟩
    | none =>
      cases hl : ReadVideoFrame.locked ANY st.shared f.width f.height f.timestamp with
      | none =>
        have e : lockStep ANY Scale st (LockStep.readBegin f) = st := by
          simp only [lockStep, hp, hl]
        rw [e]
        exact ⟨h1, h2, h3⟩
      | some r =>
        obtain ⟨s2, image_size⟩ := r
        obtain ⟨_, k2, _, k4⟩ := locked_some ANY st.shared s2 f.width f.height f.timestamp
          image_size hl
        have e : lockStep ANY Scale st (LockStep.readBegin f)
            = { st with shared := s2, pending := some ⟨f, image_size⟩ } := by
          simp only [lockStep, hp, hl]
        rw [e]
        refine ⟨fun hn => h1 (by rw [← k4]; exact hn), fun hnone => (by cases hnone),
          fun p hq => ?_⟩
        simp only [Option.some.injEq] at hq
        subst hq
        exact k2
  | readEnd =>
    cases hp : st.pending with
    | none =>
      have e : lockStep ANY Scale st LockStep.readEnd = st := by
        simp only [lockStep, hp]
      rw [e]
      exact ⟨h1, h2, h3⟩
    | some q =>
      have e : lockStep ANY Scale st LockStep.readEnd
          = { shared := (ReadVideoFrame.store st.shared
                (ReadVideoFrame.produce Scale q.frame.width q.frame.height q.frame.data
                  q.frame.stride q.frame.format q.image_size)).1
              pending := none
              imageSource := some (QSize.mk (toInt32 q.frame.width) (toInt32 q.frame.height)) } := by
        simp only [lockStep, hp]
      rw [e]
      refine ⟨fun _ => ⟨_, rfl⟩, fun _ sz hsz => ?_, fun p hq => (by cases hq)⟩
      simp only [Option.some.injEq] at hsz
      subst hsz
      exact h3 q hp
  | Reset =>
    refine ⟨fun hn => ?_, fun _ sz hsz => (by cases hsz), fun p hq => h3 p hq⟩
    simp [lockStep, Reset, QImage.isNull, QImage.null] at hn
  | SetFrameRate r => exact ⟨h1, h2, h3⟩
  | GetNextVideoTimestamp => exact ⟨h1, h2, h3⟩
  | showEvent => exact ⟨h1, h2, h3⟩
  | hideEvent => exact ⟨h1, h2, h3⟩
  | resizeEvent W H => exact ⟨h1, h2, h3⟩
  | paintSnapshot => exact ⟨h1, h2, h3⟩

theorem lockRun_invariant (ANY : Int) (Scale : FastScaler) (steps : List LockStep) :
    ∀ st : Observed,
      (st.shared.m_image.isNull = false → ∃ sz, st.imageSource = some sz) →
      (st.pending = none → ∀ sz, st.imageSource = some sz → st.shared.m_source_size = sz) →
      (∀ p, st.pending = some p →
        st.shared.m_source_size = QSize.mk (toInt32 p.frame.width) (toInt32 p.frame.height)) →
      ((lockRun ANY Scale st steps).shared.m_image.isNull = false →
        ∃ sz, (lockRun ANY Scale st steps).imageSource = some sz) ∧
      ((lockRun ANY Scale st steps).pending = none → ∀ sz,
        (lockRun ANY Scale st steps).imageSource = some sz →
        (lockRun ANY Scale st steps).shared.m_source_size = sz) ∧
      (∀ p, (lockRun ANY Scale st steps).pending = some p →
        (lockRun ANY Scale st steps).shared.m_source_size
          = QSize.mk (toInt32 p.frame.width) (toInt32 p.frame.height)) := by
  induction steps with
  | nil => intro st h1 h2 h3; exact ⟨h1, h2, h3⟩
  | cons a steps ih =>
    intro st h1 h2 h3
    obtain ⟨k1, k2, k3⟩ := lockStep_invariant ANY Scale st a h1 h2 h3
    exact ih (lockStep ANY Scale st a) k1 k2 k3

/-- Claim C12: the code breaks the claim at this input. `ReadVideoFrame`
writes `m_source_size` in its first locked block and the image in its second.
After a `2 x 2` frame has been stored and a `4 x 2` frame has passed the first
block, the snapshot of `paintEvent` holds the image produced from the `2 x 2`
frame together with the source size `4 x 2`, and `paintEvent` scales the
`2 x 2` image into a `4 x 2` rectangle although the widget was not resized
after the image was captured. -/
theorem snapshot_between_blocks_counterexample :
    (paintSnapshot (lockRun sentinel scaleNothing (observedInit sentinel)
      [LockStep.showEvent, LockStep.resizeEvent 6 6, LockStep.readBegin (frameOf 2 2 0),
        LockStep.readEnd, LockStep.readBegin (frameOf 4 2 1000000),
        LockStep.paintSnapshot])).1.isNull = false ∧
    (lockRun sentinel scaleNothing (observedInit sentinel)
      [LockStep.showEvent, LockStep.resizeEvent 6 6, LockStep.readBegin (frameOf 2 2 0),
        LockStep.readEnd, LockStep.readBegin (frameOf 4 2 1000000),
        LockStep.paintSnapshot]).imageSource = some (QSize.mk 2 2) ∧
    (paintSnapshot (lockRun sentinel scaleNothing (observedInit sentinel)
      [LockStep.showEvent, LockStep.resizeEvent 6 6, LockStep.readBegin (frameOf 2 2 0),
        LockStep.readEnd, LockStep.readBegin (frameOf 4 2 1000000),
        LockStep.paintSnapshot])).2 = QSize.mk 4 2 ∧
    ¬ Consistent (lockRun sentinel scaleNothing (observedInit sentinel)
      [LockStep.showEvent, LockStep.resizeEvent 6 6, LockStep.readBegin (frameOf 2 2 0),
        LockStep.readEnd, LockStep.readBegin (frameOf 4 2 1000000),
        LockStep.paintSnapshot]) ∧
    (paintSnapshot (lockRun sentinel scaleNothing (observedInit sentinel)
      [LockStep.showEvent, LockStep.resizeEvent 6 6, LockStep.readBegin (frameOf 2 2 0),
        LockStep.readEnd, LockStep.readBegin (frameOf 4 2 1000000),
        LockStep.paintSnapshot])).1.size = QSize.mk 2 2 ∧
    paintEvent (lockRun sentinel scaleNothing (observedInit sentinel)
      [LockStep.showEvent, LockStep.resizeEvent 6 6, LockStep.readBegin (frameOf 2 2 0),
        LockStep.readEnd, LockStep.readBegin (frameOf 4 2 1000000),
        LockStep.paintSnapshot]).shared 6 6
      = some (QRect.mk (QPoint.mk 1 2) (QSize.mk 4 2)) := by
  decide

/-- With no `ReadVideoFrame` between its two locked blocks, a present image was
produced from a source frame whose dimensions are the stored `m_source_size`. -/
theorem snapshot_consistent_when_idle (ANY : Int) (Scale : FastScaler) (steps : List LockStep)
    (hidle : (lockRun ANY Scale (observedInit ANY) steps).pending = none) :
    Consistent (lockRun ANY Scale (observedInit ANY) steps) := by
  obtain ⟨k1, k2, _⟩ := lockRun_invariant ANY Scale steps (observedInit ANY)
    (fun hn => by simp [observedInit, init, QImage.isNull, QImage.null] at hn)
    (fun _ sz hsz => (by cases hsz)) (fun p hp => (by cases hp))
  intro hn
  obtain ⟨sz, hsz⟩ := k1 hn
  exact hsz.trans (congrArg some (k2 hidle sz hsz).symm)

/-! ## Capture-time and render-time geometry -/

/-- One lock-held section that leaves the capture alone keeps this: the surface
size and the source size stay; a call in flight is the captured one, with the
fitted size of the capture; with no call in flight a present image has the
fitted size of the capture. -/
theorem lockStep_capture (ANY : Int) (Scale : FastScaler) (st : Observed) (a : LockStep)
    (f : Frame) (wsize : QSize)
    (hk : match a with
      | LockStep.readBegin g => lockStep ANY Scale st (LockStep.readBegin g) = st
      | LockStep.resizeEvent _ _ => False
      | _ => True)
    (h1 : st.shared.m_widget_size = wsize)
    (h2 : st.shared.m_source_size = QSize.mk (toInt32 f.width) (toInt32 f.height))
    (h3 : ∀ p, st.pending = some p → p.frame = f ∧
      p.image_size = CalculateScaledSize (QSize.mk (toInt32 f.width) (toInt32 f.height)) wsize)
    (h4 : st.pending = none → st.shared.m_image.isNull = false →
      st.shared.m_image.size
        = CalculateScaledSize (QSize.mk (toInt32 f.width) (toInt32 f.height)) wsize) :
    (lockStep ANY Scale st a).shared.m_widget_size = wsize ∧
    (lockStep ANY Scale st a).shared.m_source_size
      = QSize.mk (toInt32 f.width) (toInt32 f.height) ∧
    (∀ p, (lockStep ANY Scale st a).pending = some p → p.frame = f ∧
      p.image_size = CalculateScaledSize (QSize.mk (toInt32 f.width) (toInt32 f.height)) wsize) ∧
    ((lockStep ANY Scale st a).pending = none →
      (lockStep ANY Scale st a).shared.m_image.isNull = false →
      (lockStep ANY Scale st a).shared.m_image.size
        = CalculateScaledSize (QSize.mk (toInt32 f.width) (toInt32 f.height)) wsize) := by
  cases a with
  | readBegin g =>
    have e : lockStep ANY Scale st (LockStep.readBegin g) = st := hk
    rw [e]
    exact ⟨h1, h2, h3, h4⟩
  | readEnd =>
    cases hp : st.pending with
    | none =>
      have e : lockStep ANY Scale st LockStep.readEnd = st := by
        simp only [lockStep, hp]
      rw [e]
      exact ⟨h1, h2, h3, h4⟩
    | some q =>
      have e : lockStep ANY Scale st LockStep.readEnd
          = { shared := (ReadVideoFrame.store st.shared
                (ReadVideoFrame.produce Scale q.frame.width q.frame.height q.frame.data
                  q.frame.stride q.frame.format q.image_size)).1
              pending := none
              imageSource := some (QSize.mk (toInt32 q.frame.width) (toInt32 q.frame.height)) } := by
        simp only [lockStep, hp]
      rw [e]
      refine ⟨h1, h2, fun p hq => (by cases hq), fun _ hn => ?_⟩
      obtain ⟨_, hsz⟩ := h3 q hp
      have := (produce_size Scale q.frame.width q.frame.height q.frame.data q.frame.stride
        q.frame.format q.image_size).2 hn
      exact this.trans hsz
  | Reset =>
    refine ⟨h1, h2, h3, fun _ hn => ?_⟩
    simp [lockStep, Reset, QImage.isNull, QImage.null] at hn
  | SetFrameRate r => exact ⟨h1, h2, h3, h4⟩
  | GetNextVideoTimestamp => exact ⟨h1, h2, h3, h4⟩
  | showEvent => exact ⟨h1, h2, h3, h4⟩
  | hideEvent => exact ⟨h1, h2, h3, h4⟩
  | resizeEvent W H => exact absurd hk id
  | paintSnapshot => exact ⟨h1, h2, h3, h4⟩

theorem lockRun_capture (ANY : Int) (Scale : FastScaler) (f : Frame) (wsize : QSize)
    (steps : List LockStep) :
    ∀ st : Observed, keepsCapture ANY Scale st steps →
      st.shared.m_widget_size = wsize →
      st.shared.m_source_size = QSize.mk (toInt32 f.width) (toInt32 f.height) →
      (∀ p, st.pending = some p → p.frame = f ∧
        p.image_size
          = CalculateScaledSize (QSize.mk (toInt32 f.width) (toInt32 f.height)) wsize) →
      (st.pending = none → st.shared.m_image.isNull = false →
        st.shared.m_image.size
          = CalculateScaledSize (QSize.mk (toInt32 f.width) (toInt32 f.height)) wsize) →
      (lockRun ANY Scale st steps).shared.m_widget_size = wsize ∧
      (lockRun ANY Scale st steps).shared.m_source_size
        = QSize.mk (toInt32 f.width) (toInt32 f.height) ∧
      ((lockRun ANY Scale st steps).pending = none →
        (lockRun ANY Scale st steps).shared.m_image.isNull = false →
        (lockRun ANY Scale st steps).shared.m_image.size
          = CalculateScaledSize (QSize.mk (toInt32 f.width) (toInt32 f.height)) wsize) := by
  induction steps with
  | nil => intro st _ h1 h2 _ h4; exact ⟨h1, h2, h4⟩
  | cons a steps ih =>
    intro st hk h1 h2 h3 h4
    obtain ⟨ha, hrest⟩ := hk
    obtain ⟨k1, k2, k3, k4⟩ := lockStep_capture ANY Scale st a f wsize ha h1 h2 h3 h4
    exact ih (lockStep ANY Scale st a) hrest k1 k2 k3 k4

/-- Claim C13 fails as stated: `ReadVideoFrame` computes the fitted size in its
first locked block and releases the lock while it scales. An `8 x 8` frame
enters with the surface at `4 x 4`, the widget is resized to `4 x 4` (surface
`2 x 2`) during the call, and the call stores its `4 x 4` image; with nothing
between the return of the call and `paintEvent`, the rectangle is `2 x 2`. -/
theorem capture_render_counterexample :
    (lockRun sentinel scaleNothing (observedInit sentinel)
      [LockStep.showEvent, LockStep.resizeEvent 6 6, LockStep.readBegin (frameOf 8 8 0),
        LockStep.resizeEvent 4 4, LockStep.readEnd]).shared.m_image.size = QSize.mk 4 4 ∧
    (lockRun sentinel scaleNothing (observedInit sentinel)
      [LockStep.showEvent, LockStep.resizeEvent 6 6, LockStep.readBegin (frameOf 8 8 0),
        LockStep.resizeEvent 4 4, LockStep.readEnd]).pending = none ∧
    paintEvent (lockRun sentinel scaleNothing (observedInit sentinel)
      [LockStep.showEvent, LockStep.resizeEvent 6 6, LockStep.readBegin (frameOf 8 8 0),
        LockStep.resizeEvent 4 4, LockStep.readEnd]).shared 4 4
      = some (QRect.mk (QPoint.mk 1 1) (QSize.mk 2 2)) := by
  decide

/-- Claim C13, amended: capture-time and render-time geometry agree when the
surface size does not change from the first locked block of the accepted call
on. Taking each lock-held section as one atomic step: if a `ReadVideoFrame`
starts with no call in flight and passes its first locked block while
`m_widget_size` is `(W - 2, H - 2)`, and the sections from there to a
`paintEvent` on a widget of size `W x H` contain no `resizeEvent` and no first
locked block that accepts another frame, and the call has stored its image,
then the rectangle size that `paintEvent` computes with `CalculateScaledSize`
from the stored `m_source_size` and `(W - 2, H - 2)` is the size of the stored
image, which is the fitted size computed at capture: the image is drawn
without rescaling. -/
theorem capture_render_agree (ANY : Int) (Scale : FastScaler) (st : Observed) (f : Frame)
    (steps : List LockStep) (W H : Int) (r : QRect)
    (hidle : st.pending = none)
    (hsize : st.shared.m_widget_size = QSize.mk (W - 2) (H - 2))
    (hacc : (lockStep ANY Scale st (LockStep.readBegin f)).pending ≠ none)
    (hquiet : keepsCapture ANY Scale (lockStep ANY Scale st (LockStep.readBegin f)) steps)
    (hdone : (lockRun ANY Scale (lockStep ANY Scale st (LockStep.readBegin f)) steps).pending
      = none)
    (hr : paintEvent
      (lockRun ANY Scale (lockStep ANY Scale st (LockStep.readBegin f)) steps).shared W H
      = some r) :
    r.size = (lockRun ANY Scale (lockStep ANY Scale st (LockStep.readBegin f))
      steps).shared.m_image.size ∧
    r.size = CalculateScaledSize (QSize.mk (toInt32 f.width) (toInt32 f.height))
      (QSize.mk (W - 2) (H - 2)) := by
  have hbegin : ∃ s2 image_size,
      ReadVideoFrame.locked ANY st.shared f.width f.height f.timestamp = some (s2, image_size) ∧
      lockStep ANY Scale st (LockStep.readBegin f)
        = { st with shared := s2, pending := some ⟨f, image_size⟩ } := by
    cases hl : ReadVideoFrame.locked ANY st.shared f.width f.height f.timestamp with
    | none =>
      have e : lockStep ANY Scale st (LockStep.readBegin f) = st := by
        simp only [lockStep, hidle, hl]
      rw [e] at hacc
      exact absurd hidle hacc
    | some q =>
      obtain ⟨s2, image_size⟩ := q
      exact ⟨s2, image_size, rfl, by simp only [lockStep, hidle, hl]⟩
  obtain ⟨s2, image_size, hl, e⟩ := hbegin
  obtain ⟨l1, l2, l3, _⟩ := locked_some ANY st.shared s2 f.width f.height f.timestamp
    image_size hl
  rw [e] at hquiet hdone hr ⊢
  obtain ⟨k1, k2, k3⟩ := lockRun_capture ANY Scale f (QSize.mk (W - 2) (H - 2)) steps
    { st with shared := s2, pending := some ⟨f, image_size⟩ } hquiet
    (l3.trans hsize) l2
    (fun p hp => by
      simp only [Option.some.injEq] at hp
      subst hp
      refine ⟨rfl, ?_⟩
      show image_size = _
      rw [l1, l2, l3, hsize])
    (fun hnone => (by cases hnone))
  simp only [paintEvent] at hr
  split at hr
  · rename_i hnull
    simp only [Bool.not_eq_true'] at hnull
    cases hr
    simp only
    rw [k2, k3 hdone hnull]
    exact ⟨rfl, rfl⟩
  · cases hr

theorem capture_render_agree_witness :
    (QRect.mk (QPoint.mk 1 1) (QSize.mk 4 4)).size
      = (lockRun sentinel scaleNothing
          (lockStep sentinel scaleNothing
            (lockRun sentinel scaleNothing (observedInit sentinel)
              [LockStep.showEvent, LockStep.resizeEvent 6 6])
            (LockStep.readBegin (frameOf 8 8 0)))
          [LockStep.SetFrameRate 25, LockStep.paintSnapshot, LockStep.readEnd,
            LockStep.hideEvent]).shared.m_image.size ∧
    (QRect.mk (QPoint.mk 1 1) (QSize.mk 4 4)).size
      = CalculateScaledSize
          (QSize.mk (toInt32 (frameOf 8 8 0).width) (toInt32 (frameOf 8 8 0).height))
          (QSize.mk (6 - 2) (6 - 2)) :=
  capture_render_agree sentinel scaleNothing
    (lockRun sentinel scaleNothing (observedInit sentinel)
      [LockStep.showEvent, LockStep.resizeEvent 6 6])
    (frameOf 8 8 0)
    [LockStep.SetFrameRate 25, LockStep.paintSnapshot, LockStep.readEnd, LockStep.hideEvent]
    6 6 (QRect.mk (QPoint.mk 1 1) (QSize.mk 4 4))
    (by decide) (by decide) (by decide) ⟨trivial, trivial, trivial, trivial, trivial⟩
    (by decide) (by decide)

end VideoPreviewer

end SSR
